import Mathlib

/-!
Verification of the DSpace metadata-curation scripts (ilri/DSpace).

We shallowly embed the database-mutation scripts (`fix_metadata_values.py`,
`delete_metadata_values.py`, `move_metadata_values.py`), the shared helpers in
`util.py` (`field_name_to_field_id`, `update_item_last_modified`, `db_connect`,
`download_file`), and the ROR lookup (`ror_lookup.py`).

The relational store is modelled as lists of rows; SQL statements become pure
functions on that store; the sequence of statements a script issues is recorded
as an explicit event trace so that dry-run / write / commit behaviour can be
stated.  Python's unhandled `UnboundLocalError` (which `field_name_to_field_id`
raises when a schema or field is absent) is modelled with an explicit error
value.
-/

namespace DSpace

/-- A row of `metadataschemaregistry`: maps a schema short name to its id. -/
structure SchemaRow where
  metadata_schema_id : Nat
  short_id : String
deriving DecidableEq, Repr

/-- A row of `metadatafieldregistry`. -/
structure FieldRow where
  metadata_field_id : Nat
  metadata_schema_id : Nat
  element : String
  qualifier : Option String
deriving DecidableEq, Repr

/-- A row of `item`. -/
structure Item where
  uuid : String
  in_archive : Bool
  withdrawn : Bool
  last_modified : Nat
deriving DecidableEq, Repr

/-- A row of `metadatavalue`: a (object id, field id, text value) triple. -/
structure MetadataValue where
  dspace_object_id : String
  metadata_field_id : Nat
  text_value : String
deriving DecidableEq, Repr

/-- The database state the scripts operate on. -/
structure DB where
  schemas : List SchemaRow
  fields : List FieldRow
  items : List Item
  metadatavalue : List MetadataValue
deriving DecidableEq, Repr

/-- The only failure mode of the embedded helpers: Python's unhandled
`UnboundLocalError`, raised by `field_name_to_field_id` when the local
variable it returns was never assigned. -/
inductive PyErr where
  | unboundLocalError
deriving DecidableEq, Repr

/-- Python's `s.split(".")` (splitting on a single-character separator keeps
empty pieces, and the split of `""` is `[""]`). -/
def pySplitDotAux : List Char → List Char → List String
  | [], acc => [String.mk acc.reverse]
  | c :: cs, acc =>
      if c = '.' then String.mk acc.reverse :: pySplitDotAux cs []
      else pySplitDotAux cs (c :: acc)

def pySplitDot (s : String) : List String := pySplitDotAux s.data []

/-- `SELECT metadata_schema_id FROM metadataschemaregistry WHERE short_id=%s`
followed by `fetchone` (the first matching row, if any). -/
def lookupSchemaId (db : DB) (schema : String) : Option Nat :=
  (db.schemas.find? (fun r => r.short_id == schema)).map (fun r => r.metadata_schema_id)

/-- `SELECT metadata_field_id FROM metadatafieldregistry WHERE
metadata_schema_id=%s AND element=%s AND qualifier=%s` with `fetchone`. -/
def lookupFieldIdQualified (db : DB) (sid : Nat) (element qualifier : String) : Option Nat :=
  (db.fields.find? (fun r =>
    r.metadata_schema_id == sid && r.element == element && r.qualifier == some qualifier)).map
    (fun r => r.metadata_field_id)

/-- `SELECT metadata_field_id FROM metadatafieldregistry WHERE
metadata_schema_id=%s AND element=%s` with `fetchone` (note: unqualified
resolution does not constrain the qualifier column). -/
def lookupFieldIdUnqualified (db : DB) (sid : Nat) (element : String) : Option Nat :=
  (db.fields.find? (fun r =>
    r.metadata_schema_id == sid && r.element == element)).map
    (fun r => r.metadata_field_id)

/-- Body of `util.field_name_to_field_id` after the name has been split:
if the schema select returns no row, or the field select returns no row, the
function falls through to `return metadata_field_id` with that local variable
unassigned, raising `UnboundLocalError`.  Python's `if qualifier:` treats the
empty string like `None`, so a name `a.b.` resolves with the unqualified
query. -/
def resolveFieldId (db : DB) (schema element : String) (qualifier : Option String) :
    Except PyErr Nat :=
  match lookupSchemaId db schema with
  | none => .error .unboundLocalError
  | some sid =>
      let fid? :=
        match qualifier with
        | some q => if q ≠ "" then lookupFieldIdQualified db sid element q
                    else lookupFieldIdUnqualified db sid element
        | none => lookupFieldIdUnqualified db sid element
      match fid? with
      | none => .error .unboundLocalError
      | some fid => .ok fid

/-- `util.field_name_to_field_id`.  A name with three dot-separated parts is
schema.element.qualifier; two parts is schema.element; any other shape leaves
`schema` itself unassigned and raises `UnboundLocalError` at the first use. -/
def field_name_to_field_id (db : DB) (metadata_field : String) : Except PyErr Nat :=
  match pySplitDot metadata_field with
  | [schema, element, qualifier] => resolveFieldId db schema element (some qualifier)
  | [schema, element] => resolveFieldId db schema element none
  | _ => .error .unboundLocalError

example : pySplitDot "dc.title" = ["dc", "title"] := by decide

example : pySplitDot "cg.creator.identifier" = ["cg", "creator", "identifier"] := by decide

example : pySplitDot "" = [""] := by decide

/-! ## SQL statements issued by the mutation scripts -/

/-- Uuids of items satisfying `in_archive AND NOT withdrawn`
(`SELECT uuid FROM item WHERE in_archive AND NOT withdrawn`). -/
def archivedUuids (db : DB) : List String :=
  (db.items.filter (fun i => i.in_archive && !i.withdrawn)).map (fun i => i.uuid)

/-- The `WHERE` clause shared by the scripts' SELECT/UPDATE/DELETE statements:
`dspace_object_id IN (SELECT uuid FROM item WHERE in_archive AND NOT withdrawn)
AND metadata_field_id=%s AND text_value=%s`. -/
def mvMatches (db : DB) (fid : Nat) (v : String) (mv : MetadataValue) : Bool :=
  (archivedUuids db).contains mv.dspace_object_id
    && mv.metadata_field_id == fid && mv.text_value == v

/-- `SELECT dspace_object_id FROM metadatavalue WHERE <mvMatches>` — one result
row per matching metadata value (not `DISTINCT`): the same object id appears
once per matching value it carries. -/
def selectObjectIds (db : DB) (fid : Nat) (v : String) : List String :=
  (db.metadatavalue.filter (mvMatches db fid v)).map (fun mv => mv.dspace_object_id)

/-- `UPDATE metadatavalue SET text_value=%s WHERE <mvMatches>`; returns the new
database and the statement's rowcount. -/
def sqlUpdateTextValue (db : DB) (toV : String) (fid : Nat) (fromV : String) : DB × Nat :=
  (⟨db.schemas, db.fields, db.items,
    db.metadatavalue.map (fun mv =>
      if mvMatches db fid fromV mv then
        ⟨mv.dspace_object_id, mv.metadata_field_id, toV⟩ else mv)⟩,
   (db.metadatavalue.filter (mvMatches db fid fromV)).length)

/-- `DELETE from metadatavalue WHERE <mvMatches>`; returns the new database and
the statement's rowcount. -/
def sqlDeleteValues (db : DB) (fid : Nat) (v : String) : DB × Nat :=
  (⟨db.schemas, db.fields, db.items,
    db.metadatavalue.filter (fun mv => !mvMatches db fid v mv)⟩,
   (db.metadatavalue.filter (mvMatches db fid v)).length)

/-- `UPDATE metadatavalue SET metadata_field_id=%s WHERE <mvMatches>` (the move
script); returns the new database and the statement's rowcount. -/
def sqlMoveFieldId (db : DB) (toFid fromFid : Nat) (v : String) : DB × Nat :=
  (⟨db.schemas, db.fields, db.items,
    db.metadatavalue.map (fun mv =>
      if mvMatches db fromFid v mv then
        ⟨mv.dspace_object_id, toFid, mv.text_value⟩ else mv)⟩,
   (db.metadatavalue.filter (mvMatches db fromFid v)).length)

/-- `util.update_item_last_modified`:
`UPDATE item SET last_modified=NOW() WHERE uuid=%s`. -/
def update_item_last_modified (db : DB) (dspace_object_id : String) (now : Nat) : DB :=
  ⟨db.schemas, db.fields,
   db.items.map (fun i =>
     if i.uuid == dspace_object_id then ⟨i.uuid, i.in_archive, i.withdrawn, now⟩ else i),
   db.metadatavalue⟩

/-! ## Event traces

Every SQL statement a script sends to the connection is recorded as an event
(the read-only registry lookups inside `field_name_to_field_id` are pure
SELECTs and are not traced).  `commit` records `conn.commit()`, issued either
explicitly or by psycopg2's `with conn:` block on clean exit. -/

inductive DbEvent where
  /-- The read-only object-id/count SELECT. -/
  | selectIds (fieldId : Nat) (value : String)
  /-- The fix script's UPDATE of `text_value`. -/
  | updateTextValue (toValue : String) (fieldId : Nat) (fromValue : String)
  /-- The delete script's DELETE. -/
  | deleteValues (fieldId : Nat) (value : String)
  /-- The move script's UPDATE of `metadata_field_id`. -/
  | moveFieldId (toField : Nat) (fromField : Nat) (value : String)
  /-- `update_item_last_modified` for one object. -/
  | touchItem (uuid : String)
  /-- `conn.commit()`. -/
  | commit
deriving DecidableEq, Repr

/-- Whether an event is a write statement (UPDATE/DELETE/INSERT). -/
def DbEvent.isWriteStatement : DbEvent → Bool
  | .updateTextValue _ _ _ => true
  | .deleteValues _ _ => true
  | .moveFieldId _ _ _ => true
  | .touchItem _ => true
  | _ => false

/-- State threaded through a script run: the database, the trace of issued
statements, and the list of "Fixed/Deleted/Moved N occurences" counts the
script printed. -/
structure RunState where
  db : DB
  events : List DbEvent
  reports : List Nat
deriving DecidableEq, Repr

/-- Append the `update_item_last_modified` calls for a list of fetched object
ids (`for record in matching_records: util.update_item_last_modified(...)`). -/
def touchAll (now : Nat) (st : RunState) (ids : List String) : RunState :=
  ids.foldl (fun s u =>
    ⟨update_item_last_modified s.db u now, s.events ++ [.touchItem u], s.reports⟩) st

/-! ## fix_metadata_values.py -/

/-- CLI flags of `fix-metadata-values.py` relevant to the loop. -/
structure FixArgs where
  dry_run : Bool
  quiet : Bool
  from_field_name : String
  to_field_name : String
deriving DecidableEq, Repr

/-- One iteration of the fix script's `for row in reader` loop.  A CSV row is
represented by the pair of values the body reads from it:
`(row[args.from_field_name], row[args.to_field_name])`.  The second component
of the result is `some e` when the iteration raised an unhandled Python error
(from `field_name_to_field_id`). -/
def fixProcessRow (args : FixArgs) (now : Nat) (st : RunState) (row : String × String) :
    RunState × Option PyErr :=
  if row.1 == row.2 then (st, none)
  else if row.2.data.contains '|' then (st, none)
  else
    match field_name_to_field_id st.db args.from_field_name with
    | .error e => (st, some e)
    | .ok fid =>
        let ids := selectObjectIds st.db fid row.1
        let st1 : RunState := ⟨st.db, st.events ++ [.selectIds fid row.1], st.reports⟩
        if ids.length > 0 then
          if args.dry_run then
            (⟨st1.db, st1.events,
              st1.reports ++ (if !args.quiet then [ids.length] else [])⟩, none)
          else
            let p := sqlUpdateTextValue st1.db row.2 fid row.1
            let st2 : RunState := ⟨p.1, st1.events ++ [.updateTextValue row.2 fid row.1],
              st1.reports ++ (if p.2 > 0 && !args.quiet then [p.2] else [])⟩
            (touchAll now st2 ids, none)
        else (st1, none)

/-- The fix script's whole row loop; stops at the first unhandled error. -/
def fixRunRows (args : FixArgs) (now : Nat) (rows : List (String × String)) (st : RunState) :
    RunState × Option PyErr :=
  match rows with
  | [] => (st, none)
  | r :: rs =>
      match fixProcessRow args now st r with
      | (st2, some e) => (st2, some e)
      | (st2, none) => fixRunRows args now rs st2

/-- A complete fix-script run over an open connection: the row loop followed by
`if not args.dry_run: conn.commit()`.  An unhandled error skips the commit. -/
def fixRun (args : FixArgs) (now : Nat) (rows : List (String × String)) (db : DB) :
    RunState × Option PyErr :=
  match fixRunRows args now rows ⟨db, [], []⟩ with
  | (st, some e) => (st, some e)
  | (st, none) =>
      if !args.dry_run then (⟨st.db, st.events ++ [.commit], st.reports⟩, none)
      else (st, none)

/-! ## delete_metadata_values.py -/

/-- CLI flags of `delete-metadata-values.py` relevant to the loop. -/
structure DeleteArgs where
  dry_run : Bool
  quiet : Bool
  from_field_name : String
deriving DecidableEq, Repr

/-- One iteration of the delete script's `for row in reader` loop; a CSV row
is represented by the one value the body reads, `row[args.from_field_name]`.
(In dry-run mode the script additionally sets `conn.read_only = True`; since
dry-run issues no writes this does not change the trace.) -/
def deleteProcessRow (args : DeleteArgs) (now : Nat) (st : RunState) (value : String) :
    RunState × Option PyErr :=
  match field_name_to_field_id st.db args.from_field_name with
  | .error e => (st, some e)
  | .ok fid =>
      let ids := selectObjectIds st.db fid value
      let st1 : RunState := ⟨st.db, st.events ++ [.selectIds fid value], st.reports⟩
      if ids.length > 0 then
        if args.dry_run then
          (⟨st1.db, st1.events,
            st1.reports ++ (if !args.quiet then [ids.length] else [])⟩, none)
        else
          let p := sqlDeleteValues st1.db fid value
          let st2 : RunState := ⟨p.1, st1.events ++ [.deleteValues fid value],
            st1.reports ++ (if p.2 > 0 && !args.quiet then [p.2] else [])⟩
          (touchAll now st2 ids, none)
      else (st1, none)

/-- The delete script's whole row loop. -/
def deleteRunRows (args : DeleteArgs) (now : Nat) (rows : List String) (st : RunState) :
    RunState × Option PyErr :=
  match rows with
  | [] => (st, none)
  | r :: rs =>
      match deleteProcessRow args now st r with
      | (st2, some e) => (st2, some e)
      | (st2, none) => deleteRunRows args now rs st2

/-- A complete delete-script run: row loop, then
`if not args.dry_run: conn.commit()`. -/
def deleteRun (args : DeleteArgs) (now : Nat) (rows : List String) (db : DB) :
    RunState × Option PyErr :=
  match deleteRunRows args now rows ⟨db, [], []⟩ with
  | (st, some e) => (st, some e)
  | (st, none) =>
      if !args.dry_run then (⟨st.db, st.events ++ [.commit], st.reports⟩, none)
      else (st, none)

/-! ## move_metadata_values.py -/

/-- CLI flags of `move-metadata-values.py` relevant to the loop. -/
structure MoveArgs where
  dry_run : Bool
  quiet : Bool
  from_field_name : String
  to_field_name : String
deriving DecidableEq, Repr

/-- One iteration of the move script's `for line in args.input_file` loop.
The whole body runs inside psycopg2's `with conn:` block, which issues
`conn.commit()` whenever the block exits without an exception — including via
the dry-run `continue` and the no-match fall-through — and rolls back (no
commit) when the body raises. -/
def moveProcessLine (args : MoveArgs) (now : Nat) (st : RunState) (line : String) :
    RunState × Option PyErr :=
  match field_name_to_field_id st.db args.from_field_name with
  | .error e => (st, some e)
  | .ok fromFid =>
      match field_name_to_field_id st.db args.to_field_name with
      | .error e => (st, some e)
      | .ok toFid =>
          let ids := selectObjectIds st.db fromFid line
          let st1 : RunState := ⟨st.db, st.events ++ [.selectIds fromFid line], st.reports⟩
          if ids.length > 0 then
            if args.dry_run then
              (⟨st1.db, st1.events ++ [.commit],
                st1.reports ++ (if !args.quiet then [ids.length] else [])⟩, none)
            else
              let p := sqlMoveFieldId st1.db toFid fromFid line
              let st2 : RunState := ⟨p.1, st1.events ++ [.moveFieldId toFid fromFid line],
                st1.reports ++ (if p.2 > 0 && !args.quiet then [p.2] else [])⟩
              let st3 := touchAll now st2 ids
              (⟨st3.db, st3.events ++ [.commit], st3.reports⟩, none)
          else (⟨st1.db, st1.events ++ [.commit], st1.reports⟩, none)

/-- The move script's whole line loop (there is no end-of-run commit: each
line's `with conn:` block commits its own transaction). -/
def moveRunRows (args : MoveArgs) (now : Nat) (lines : List String) (st : RunState) :
    RunState × Option PyErr :=
  match lines with
  | [] => (st, none)
  | l :: ls =>
      match moveProcessLine args now st l with
      | (st2, some e) => (st2, some e)
      | (st2, none) => moveRunRows args now ls st2

/-- A complete move-script run. -/
def moveRun (args : MoveArgs) (now : Nat) (lines : List String) (db : DB) :
    RunState × Option PyErr :=
  moveRunRows args now lines ⟨db, [], []⟩

/-! ## Script-level control flow (exit codes)

`fix-metadata-values.py` checks that the user-named from/to columns exist in
the CSV header and exits 1 before connecting; `util.db_connect` exits 1 on
`psycopg.OperationalError`; a clean run ends in `sys.exit(0)`.  An unhandled
Python exception in the loop terminates the process with exit status 1. -/

/-- Script-level inputs of the fix script: the CSV header
(`reader.fieldnames`), the rows (projected onto the two named columns), and
whether `psycopg.connect` succeeds. -/
structure FixCliInput where
  header : List String
  rows : List (String × String)
  dbAvailable : Bool
deriving DecidableEq, Repr

/-- Top-level control flow of `fix-metadata-values.py`: returns the process
exit status and the final run state (empty trace when the script exits before
the loop). -/
def fixScriptMain (args : FixArgs) (inp : FixCliInput) (db : DB) (now : Nat) :
    Nat × RunState :=
  if !(inp.header.contains args.from_field_name) then (1, ⟨db, [], []⟩)
  else if !(inp.header.contains args.to_field_name) then (1, ⟨db, [], []⟩)
  else if !inp.dbAvailable then (1, ⟨db, [], []⟩)
  else
    match fixRun args now inp.rows db with
    | (st, some _) => (1, st)
    | (st, none) => (0, st)

/-- Script-level inputs of the delete script. -/
structure DeleteCliInput where
  header : List String
  rows : List String
  dbAvailable : Bool
deriving DecidableEq, Repr

/-- Top-level control flow of `delete-metadata-values.py`: the single
from-column check, `db_connect`, the loop, `sys.exit(0)`. -/
def deleteScriptMain (args : DeleteArgs) (inp : DeleteCliInput) (db : DB) (now : Nat) :
    Nat × RunState :=
  if !(inp.header.contains args.from_field_name) then (1, ⟨db, [], []⟩)
  else if !inp.dbAvailable then (1, ⟨db, [], []⟩)
  else
    match deleteRun args now inp.rows db with
    | (st, some _) => (1, st)
    | (st, none) => (0, st)

/-! ## ror_lookup.py -/

/-- One organization record of the ROR JSON dump: its `name`, `aliases` and
`acronyms` entries. -/
structure RorOrg where
  name : String
  aliases : List String
  acronyms : List String
deriving DecidableEq, Repr

/-- Python's `str.lower()` (modelled on the ASCII range, which is all the
case-folding the properties below depend on). -/
def pyLower (s : String) : String := String.mk (s.data.map Char.toLower)

/-- Helper for `pyDedup`: drop elements already seen. -/
def pyDedupAux : List String → List String → List String
  | [], _ => []
  | x :: xs, seen =>
      if seen.contains x then pyDedupAux xs seen else x :: pyDedupAux xs (x :: seen)

/-- Order-preserving deduplication via `list(dict.fromkeys(...))`: keeps the
first occurrence of each element. -/
def pyDedup (l : List String) : List String := pyDedupAux l []

/-- `ror_names = [org["name"].lower() for org in ror]` (not deduplicated). -/
def ror_names (ror : List RorOrg) : List String :=
  ror.map (fun org => pyLower org.name)

/-- `ror_aliases`: all aliases lowercased, then deduplicated. -/
def ror_aliases (ror : List RorOrg) : List String :=
  pyDedup ((ror.flatMap (fun org => org.aliases)).map pyLower)

/-- `ror_acronyms`: all acronyms lowercased, then deduplicated. -/
def ror_acronyms (ror : List RorOrg) : List String :=
  pyDedup ((ror.flatMap (fun org => org.acronyms)).map pyLower)

/-- One output CSV row of `ror-lookup.py` (columns `organization`,
`match type`, `matched`). -/
structure RorRow where
  organization : String
  matchType : String
  matched : String
deriving DecidableEq, Repr

/-- The per-organization body of `resolve_organizations`: name match first,
then alias, then acronym, else a negative row. -/
def lookupOrganization (names aliases acronyms : List String) (organization : String) :
    RorRow :=
  if names.contains (pyLower organization) then ⟨organization, "name", "true"⟩
  else if aliases.contains (pyLower organization) then ⟨organization, "alias", "true"⟩
  else if acronyms.contains (pyLower organization) then ⟨organization, "acronym", "true"⟩
  else ⟨organization, "", "false"⟩

/-- `resolve_organizations`: writes one result row per input organization, in
order, never aborting on a non-match. -/
def resolve_organizations (ror : List RorOrg) (organizations : List String) : List RorRow :=
  organizations.map (lookupOrganization (ror_names ror) (ror_aliases ror) (ror_acronyms ror))

/-! ## util.download_file -/

/-- The parts of a `requests` response `download_file` inspects: `r.ok`, the
`Content-Encoding` header (`KeyError` becomes `none`), the raw body, and the
body as the gzip module would decompress it (the decompression itself is a
library call, carried here as data). -/
structure HttpResponse where
  ok : Bool
  contentEncoding : Option String
  raw : List UInt8
  rawGunzipped : List UInt8
deriving DecidableEq, Repr

/-- A file system: file names mapped to contents (first binding wins). -/
def Fs : Type := List (String × List UInt8)

instance : DecidableEq Fs := by
  unfold Fs
  infer_instance

/-- `os.path.isfile`. -/
def isfile (fs : Fs) (filename : String) : Bool := (fs.lookup filename).isSome

/-- `util.download_file`: returns `False` untouched on a non-ok response;
otherwise opens `filename` for writing, copies the (possibly gunzipped) body
in, and returns whether the file exists afterwards. -/
def download_file (r : HttpResponse) (filename : String) (fs : Fs) : Bool × Fs :=
  if !r.ok then (false, fs)
  else
    let body := if r.contentEncoding == some "gzip" then r.rawGunzipped else r.raw
    let fs2 : Fs := (filename, body) :: fs
    (isfile fs2 filename, fs2)

/-! ## Spec-modelled field resolution

The specification describes `resolve_field` as producing an explicit
"not found" error when the schema or the field is absent.  The source lets the
failure surface as an unhandled `UnboundLocalError` instead; this definition
follows the spec's words so the two failure modes can be compared. -/

/-- Modelled from the spec: the explicit "not found" error that the spec's
`resolve_field` contract requires for an absent schema or field (no such error
value exists in the source). -/
inductive ResolveNotFound where
  | schemaNotFound (schema : String)
  | fieldNotFound (field : String)
deriving DecidableEq, Repr

/-- Modelled from the spec: `resolve_field(schema.element[.qualifier]) ->
field_id`, failing with an explicit not-found error when the schema or the
field is absent from the registry. -/
def resolve_field_spec (db : DB) (metadata_field : String) :
    Except ResolveNotFound Nat :=
  match pySplitDot metadata_field with
  | [schema, element, qualifier] =>
      (match lookupSchemaId db schema with
       | none => .error (.schemaNotFound schema)
       | some sid =>
           match (if qualifier ≠ "" then lookupFieldIdQualified db sid element qualifier
                  else lookupFieldIdUnqualified db sid element) with
           | none => .error (.fieldNotFound metadata_field)
           | some fid => .ok fid)
  | [schema, element] =>
      (match lookupSchemaId db schema with
       | none => .error (.schemaNotFound schema)
       | some sid =>
           match lookupFieldIdUnqualified db sid element with
           | none => .error (.fieldNotFound metadata_field)
           | some fid => .ok fid)
  | _ => .error (.fieldNotFound metadata_field)

/-! ## Concrete sample data used by witnesses and counterexamples -/

/-- A small registry/database: schema `dc` (id 1), fields `dc.title` (64) and
`dc.title.alternative` (65); item `u1` archived, item `u2` withdrawn and not
archived; two identical metadata values on `u1` and one on `u2`. -/
def sampleDB : DB :=
  ⟨[⟨1, "dc"⟩],
   [⟨64, 1, "title", none⟩, ⟨65, 1, "title", some "alternative"⟩],
   [⟨"u1", true, false, 0⟩, ⟨"u2", false, true, 0⟩],
   [⟨"u1", 64, "Old"⟩, ⟨"u1", 64, "Old"⟩, ⟨"u2", 64, "Old"⟩]⟩

/-- A database with an empty registry. -/
def emptyDB : DB := ⟨[], [], [], []⟩

/-- A registry where the qualified field row (`dc.title.alternative`, id 65)
precedes the unqualified row (`dc.title`, id 64) for the same schema and
element. -/
def qualifiedFirstDB : DB :=
  ⟨[⟨1, "dc"⟩],
   [⟨65, 1, "title", some "alternative"⟩, ⟨64, 1, "title", none⟩],
   [], []⟩

/-- The archival-relevant shape of the item table: uuid, `in_archive`,
`withdrawn` (everything except the mutable `last_modified`). -/
def itemsShape (db : DB) : List (String × Bool × Bool) :=
  db.items.map (fun i => (i.uuid, i.in_archive, i.withdrawn))

/-! ## Helper lemmas -/

/-- Mapping a function that fixes every element selected by `q` and preserves
`q`-membership commutes away under `filter q`. -/
theorem filter_map_of_fix {α : Type} (l : List α) (g : α → α) (q : α → Bool)
    (h1 : ∀ x, q x = true → g x = x) (h2 : ∀ x, q (g x) = q x) :
    (l.map g).filter q = l.filter q := by
  induction l with
  | nil => rfl
  | cons x xs ih =>
      simp only [List.map_cons, List.filter_cons, h2 x]
      cases hx : q x with
      | false => simpa [hx] using ih
      | true => simp [hx, h1 x hx, ih]

/-- Removing only elements on which `q` is false leaves `filter q` unchanged. -/
theorem filter_not_p_filter {α : Type} (l : List α) (p q : α → Bool)
    (h : ∀ x, q x = true → p x = false) :
    (l.filter (fun x => !p x)).filter q = l.filter q := by
  induction l with
  | nil => rfl
  | cons x xs ih =>
      by_cases hq : q x = true
      · have hp := h x hq
        simp [List.filter_cons, hp, hq, ih]
      · have hq' : q x = false := by
          cases hqx : q x
          · rfl
          · exact absurd hqx hq
        by_cases hp : p x = true
        · simp [List.filter_cons, hp, hq', ih]
        · have hp' : p x = false := by
            cases hpx : p x
            · rfl
            · exact absurd hpx hp
          simp [List.filter_cons, hp', hq', ih]

/-- Membership in `pyDedupAux`. -/
theorem mem_pyDedupAux (x : String) :
    ∀ (l seen : List String), x ∈ pyDedupAux l seen ↔ x ∈ l ∧ x ∉ seen := by
  intro l
  induction l with
  | nil => intro seen; simp [pyDedupAux]
  | cons y ys ih =>
      intro seen
      rw [pyDedupAux]
      by_cases h : seen.contains y = true
      · rw [if_pos h, ih]
        have hy : y ∈ seen := by simpa using h
        constructor
        · rintro ⟨hx, hs⟩
          exact ⟨List.mem_cons_of_mem _ hx, hs⟩
        · rintro ⟨hx, hs⟩
          rcases List.mem_cons.mp hx with rfl | hx'
          · exact absurd hy hs
          · exact ⟨hx', hs⟩
      · rw [if_neg h]
        constructor
        · intro hx
          rcases List.mem_cons.mp hx with rfl | hx'
          · refine ⟨List.mem_cons_self _ _, ?_⟩
            intro hs
            exact h (by simpa using hs)
          · have := (ih (y :: seen)).mp hx'
            refine ⟨List.mem_cons_of_mem _ this.1, ?_⟩
            intro hs
            exact this.2 (List.mem_cons_of_mem _ hs)
        · rintro ⟨hx, hs⟩
          rcases List.mem_cons.mp hx with rfl | hx'
          · exact List.mem_cons_self _ _
          · by_cases hxy : x = y
            · exact hxy ▸ List.mem_cons_self _ _
            · refine List.mem_cons_of_mem _ ((ih (y :: seen)).mpr ⟨hx', ?_⟩)
              intro hmem
              rcases List.mem_cons.mp hmem with h1 | h2
              · exact hxy h1
              · exact hs h2

/-- Membership in `pyDedup` is membership in the original list. -/
theorem mem_pyDedup (x : String) (l : List String) : x ∈ pyDedup l ↔ x ∈ l := by
  rw [pyDedup, mem_pyDedupAux]
  simp

/-- Unfolding equation for `lookupFieldIdQualified`. -/
theorem lookupFieldIdQualified_eq (db : DB) (sid : Nat) (element qualifier : String) :
    lookupFieldIdQualified db sid element qualifier =
      (db.fields.find? (fun r => r.metadata_schema_id == sid && r.element == element
        && r.qualifier == some qualifier)).map (fun r => r.metadata_field_id) := rfl

/-- Reduction of `resolveFieldId` once the schema row is known and the
qualifier is a nonempty string. -/
theorem resolveFieldId_some_schema (db : DB) (schema element qualifier : String)
    (hq : qualifier ≠ "") (srow : SchemaRow)
    (hsf : db.schemas.find? (fun r => r.short_id == schema) = some srow) :
    resolveFieldId db schema element (some qualifier) =
      match lookupFieldIdQualified db srow.metadata_schema_id element qualifier with
      | none => Except.error PyErr.unboundLocalError
      | some fid => Except.ok fid := by
  rw [resolveFieldId, lookupSchemaId, hsf]
  simp only [Option.map_some']
  rw [if_pos hq]

/-- Unfolding equation for `lookupFieldIdUnqualified`. -/
theorem lookupFieldIdUnqualified_eq (db : DB) (sid : Nat) (element : String) :
    lookupFieldIdUnqualified db sid element =
      (db.fields.find? (fun r => r.metadata_schema_id == sid
        && r.element == element)).map (fun r => r.metadata_field_id) := rfl

/-- Reduction of `resolveFieldId` once the schema row is known and there is no
qualifier: the unqualified query runs, with no constraint on the qualifier
column. -/
theorem resolveFieldId_none_schema (db : DB) (schema element : String) (srow : SchemaRow)
    (hsf : db.schemas.find? (fun r => r.short_id == schema) = some srow) :
    resolveFieldId db schema element none =
      match lookupFieldIdUnqualified db srow.metadata_schema_id element with
      | none => Except.error PyErr.unboundLocalError
      | some fid => Except.ok fid := by
  rw [resolveFieldId, lookupSchemaId, hsf]
  simp only [Option.map_some']

/-- Python's `if qualifier:` treats an empty qualifier string like `None`, so
resolution with `some ""` runs the unqualified query. -/
theorem resolveFieldId_empty_qualifier (db : DB) (schema element : String) :
    resolveFieldId db schema element (some "") = resolveFieldId db schema element none := by
  rw [resolveFieldId, resolveFieldId]
  cases h : lookupSchemaId db schema with
  | none => rfl
  | some sid => simp

/-- `touchAll` on an empty record list is the identity. -/
theorem touchAll_nil (now : Nat) (st : RunState) : touchAll now st [] = st := rfl

/-- `touchAll` folds one record at a time. -/
theorem touchAll_cons (now : Nat) (st : RunState) (u : String) (us : List String) :
    touchAll now st (u :: us)
      = touchAll now ⟨update_item_last_modified st.db u now,
          st.events ++ [.touchItem u], st.reports⟩ us := rfl

/-- The trace of `touchAll`: one `touchItem` event per fetched record, in
order. -/
theorem touchAll_events (now : Nat) (ids : List String) :
    ∀ st : RunState, (touchAll now st ids).events = st.events ++ ids.map DbEvent.touchItem := by
  induction ids with
  | nil => intro st; simp [touchAll_nil]
  | cons u us ih =>
      intro st
      rw [touchAll_cons, ih]
      simp

/-- `touchAll` never changes the metadata-value table. -/
theorem touchAll_metadatavalue (now : Nat) (ids : List String) :
    ∀ st : RunState, (touchAll now st ids).db.metadatavalue = st.db.metadatavalue := by
  induction ids with
  | nil => intro st; simp [touchAll_nil]
  | cons u us ih =>
      intro st
      rw [touchAll_cons, ih]
      simp [update_item_last_modified]

/-- `touchAll` leaves the reports unchanged. -/
theorem touchAll_reports (now : Nat) (ids : List String) :
    ∀ st : RunState, (touchAll now st ids).reports = st.reports := by
  induction ids with
  | nil => intro st; simp [touchAll_nil]
  | cons u us ih =>
      intro st
      rw [touchAll_cons, ih]

/-- Counting `touchItem u` events among the touches of a record list counts
the occurrences of `u` in it. -/
theorem count_touch_map (u : String) (ids : List String) :
    ((ids.map DbEvent.touchItem).filter (fun e => e == DbEvent.touchItem u)).length
      = (ids.filter (fun v => v == u)).length := by
  induction ids with
  | nil => rfl
  | cons v vs ih =>
      by_cases hv : v = u
      · simp only [List.map_cons, List.filter_cons, hv]
        simp [ih]
      · have h1 : (DbEvent.touchItem v == DbEvent.touchItem u) = false := by
          simp [hv]
        have h2 : (v == u) = false := by simp [hv]
        simp only [List.map_cons, List.filter_cons, h1, h2]
        simp [ih]

/-- Reduction of `fixProcessRow` on a non-skipped row with a resolved field,
matching rows, and dry-run off: the UPDATE runs and every fetched record is
touched. -/
theorem fixProcessRow_update (args : FixArgs) (now : Nat) (st : RunState)
    (fv tv : String) (fid : Nat)
    (hdry : args.dry_run = false) (hneq : fv ≠ tv)
    (hsep : tv.data.contains '|' = false)
    (hfid : field_name_to_field_id st.db args.from_field_name = Except.ok fid)
    (hpos : 0 < (selectObjectIds st.db fid fv).length) :
    fixProcessRow args now st (fv, tv) =
      (touchAll now
        ⟨(sqlUpdateTextValue st.db tv fid fv).1,
         (st.events ++ [.selectIds fid fv]) ++ [.updateTextValue tv fid fv],
         st.reports ++ (if (sqlUpdateTextValue st.db tv fid fv).2 > 0 && !args.quiet
           then [(sqlUpdateTextValue st.db tv fid fv).2] else [])⟩
        (selectObjectIds st.db fid fv), none) := by
  have hg2 : ¬ '|' ∈ tv.data := by simpa using hsep
  rw [fixProcessRow]
  simp only [hfid, hdry]
  rw [if_pos hpos]
  simp [hneq, hg2]

/-- Reduction of `fixProcessRow` on a non-skipped row with a resolved field
and no matching rows: only the count SELECT runs. -/
theorem fixProcessRow_nomatch (args : FixArgs) (now : Nat) (st : RunState)
    (fv tv : String) (fid : Nat)
    (hneq : fv ≠ tv) (hsep : tv.data.contains '|' = false)
    (hfid : field_name_to_field_id st.db args.from_field_name = Except.ok fid)
    (hzero : (selectObjectIds st.db fid fv).length = 0) :
    fixProcessRow args now st (fv, tv)
      = (⟨st.db, st.events ++ [.selectIds fid fv], st.reports⟩, none) := by
  have hg2 : ¬ '|' ∈ tv.data := by simpa using hsep
  rw [fixProcessRow]
  simp [hfid, hneq, hg2, hzero]

/-- Filtering the object ids fetched for matching rows down to one object
counts that object's matching metadata values. -/
theorem count_ids_eq_count_matching (l : List MetadataValue) (p : MetadataValue → Bool)
    (u : String) :
    (((l.filter p).map (fun mv => mv.dspace_object_id)).filter (fun v => v == u)).length
      = (l.filter (fun mv => p mv && mv.dspace_object_id == u)).length := by
  induction l with
  | nil => rfl
  | cons mv mvs ih =>
      by_cases hp : p mv = true
      · by_cases hu : mv.dspace_object_id = u
        · have h2 : (mv.dspace_object_id == u) = true := by simp [hu]
          simp only [List.filter_cons, List.map_cons, hp, Bool.true_and, h2]
          simp [h2, ih]
        · have h2 : (mv.dspace_object_id == u) = false := by simp [hu]
          simp only [List.filter_cons, List.map_cons, hp, Bool.true_and, h2]
          simp [h2, ih]
      · have hp' : p mv = false := by
          cases hpx : p mv
          · rfl
          · exact absurd hpx hp
        simp only [List.filter_cons, hp', Bool.false_and]
        simp [ih]

/-! ## Claim theorems -/

/-- Claim C10: for every URL and destination filename, a non-ok HTTP response
makes `download_file` return `False` without opening or writing the
destination; an ok response writes the body (gunzipped exactly when
`Content-Encoding` is `gzip`) and the returned flag is `True`, which is
exactly the existence of the file on disk afterwards. -/
theorem download_file_contract (r : HttpResponse) (filename : String) (fs : Fs) :
    (r.ok = false → download_file r filename fs = (false, fs)) ∧
    (r.ok = true →
      download_file r filename fs =
        (true, (filename,
          if r.contentEncoding == some "gzip" then r.rawGunzipped else r.raw) :: fs) ∧
      (download_file r filename fs).1 =
        isfile (download_file r filename fs).2 filename) := by
  constructor
  · intro h
    simp [download_file, h]
  · intro h
    have hmain : download_file r filename fs =
        (true, (filename,
          if r.contentEncoding == some "gzip" then r.rawGunzipped else r.raw) :: fs) := by
      simp [download_file, h, isfile]
    refine ⟨hmain, ?_⟩
    rw [hmain]
    simp [isfile]

/-- Witness for `download_file_contract`: a failed response leaves an empty
file system untouched; an ok gzip response writes the gunzipped body. -/
theorem download_file_contract_witness :
    download_file ⟨false, none, [1], [2]⟩ "f" [] = (false, []) ∧
    download_file ⟨true, some "gzip", [1], [2]⟩ "f" [] = (true, [("f", [2])]) :=
  ⟨(download_file_contract ⟨false, none, [1], [2]⟩ "f" []).1 rfl,
   by
     have h := ((download_file_contract ⟨true, some "gzip", [1], [2]⟩ "f" []).2 rfl).1
     simpa using h⟩

/-- Claim C8: an input term that matches nothing in the ROR dataset produces a
negative output row (`matched = "false"`, empty match type); the run records
one row per input term, so a non-match is never fatal to the run. -/
theorem ror_no_match_negative_row (ror : List RorOrg) (orgs : List String) (org : String)
    (h1 : (ror_names ror).contains (pyLower org) = false)
    (h2 : (ror_aliases ror).contains (pyLower org) = false)
    (h3 : (ror_acronyms ror).contains (pyLower org) = false) :
    lookupOrganization (ror_names ror) (ror_aliases ror) (ror_acronyms ror) org
      = ⟨org, "", "false"⟩ ∧
    (org ∈ orgs → (⟨org, "", "false"⟩ : RorRow) ∈ resolve_organizations ror orgs) ∧
    (resolve_organizations ror orgs).length = orgs.length := by
  have h1' : pyLower org ∉ ror_names ror := by simpa using h1
  have h2' : pyLower org ∉ ror_aliases ror := by simpa using h2
  have h3' : pyLower org ∉ ror_acronyms ror := by simpa using h3
  have hrow : lookupOrganization (ror_names ror) (ror_aliases ror) (ror_acronyms ror) org
      = ⟨org, "", "false"⟩ := by
    simp [lookupOrganization, h1', h2', h3']
  refine ⟨hrow, fun hm => ?_, by simp [resolve_organizations]⟩
  exact hrow ▸ List.mem_map_of_mem _ hm

/-- Witness for `ror_no_match_negative_row`: a term absent from a one-entry
ROR dataset yields the negative row and the full output. -/
theorem ror_no_match_negative_row_witness :
    lookupOrganization (ror_names [⟨"Intl Livestock Research Inst", ["ILRI Kenya"], ["ILRI"]⟩])
        (ror_aliases [⟨"Intl Livestock Research Inst", ["ILRI Kenya"], ["ILRI"]⟩])
        (ror_acronyms [⟨"Intl Livestock Research Inst", ["ILRI Kenya"], ["ILRI"]⟩])
        "Some University"
      = ⟨"Some University", "", "false"⟩ ∧
    (⟨"Some University", "", "false"⟩ : RorRow) ∈
      resolve_organizations [⟨"Intl Livestock Research Inst", ["ILRI Kenya"], ["ILRI"]⟩]
        ["ILRI", "Some University"] ∧
    (resolve_organizations [⟨"Intl Livestock Research Inst", ["ILRI Kenya"], ["ILRI"]⟩]
        ["ILRI", "Some University"]).length = 2 := by
  have h := ror_no_match_negative_row
    [⟨"Intl Livestock Research Inst", ["ILRI Kenya"], ["ILRI"]⟩]
    ["ILRI", "Some University"] "Some University"
    (by decide) (by decide) (by decide)
  exact ⟨h.1, h.2.1 (by decide), h.2.2⟩

/-- Claim C9: the ROR match decision is invariant under letter case: two input
strings with the same lowercasing produce the same match decision and type;
the decision is a match iff the lowercased input equals the lowercased form of
some ROR name, alias, or acronym; and the reported type follows the fixed
priority name, then alias, then acronym. -/
theorem ror_match_case_invariant_and_priority (ror : List RorOrg) (a b : String) :
    (pyLower a = pyLower b →
      (lookupOrganization (ror_names ror) (ror_aliases ror) (ror_acronyms ror) a).matched
        = (lookupOrganization (ror_names ror) (ror_aliases ror) (ror_acronyms ror) b).matched ∧
      (lookupOrganization (ror_names ror) (ror_aliases ror) (ror_acronyms ror) a).matchType
        = (lookupOrganization (ror_names ror) (ror_aliases ror) (ror_acronyms ror) b).matchType) ∧
    ((lookupOrganization (ror_names ror) (ror_aliases ror) (ror_acronyms ror) a).matched
        = "true" ↔
      (∃ o ∈ ror, pyLower o.name = pyLower a) ∨
      (∃ o ∈ ror, ∃ al ∈ o.aliases, pyLower al = pyLower a) ∨
      (∃ o ∈ ror, ∃ ac ∈ o.acronyms, pyLower ac = pyLower a)) ∧
    ((∃ o ∈ ror, pyLower o.name = pyLower a) →
      (lookupOrganization (ror_names ror) (ror_aliases ror) (ror_acronyms ror) a).matchType
        = "name") ∧
    (¬ (∃ o ∈ ror, pyLower o.name = pyLower a) →
      (∃ o ∈ ror, ∃ al ∈ o.aliases, pyLower al = pyLower a) →
      (lookupOrganization (ror_names ror) (ror_aliases ror) (ror_acronyms ror) a).matchType
        = "alias") ∧
    (¬ (∃ o ∈ ror, pyLower o.name = pyLower a) →
      ¬ (∃ o ∈ ror, ∃ al ∈ o.aliases, pyLower al = pyLower a) →
      (∃ o ∈ ror, ∃ ac ∈ o.acronyms, pyLower ac = pyLower a) →
      (lookupOrganization (ror_names ror) (ror_aliases ror) (ror_acronyms ror) a).matchType
        = "acronym") := by
  have hn : ∀ s : String, s ∈ ror_names ror ↔ ∃ o ∈ ror, pyLower o.name = s := by
    intro s
    simp [ror_names]
  have ha : ∀ s : String, s ∈ ror_aliases ror ↔ ∃ o ∈ ror, ∃ al ∈ o.aliases, pyLower al = s := by
    intro s
    rw [ror_aliases, mem_pyDedup]
    simp only [List.mem_map, List.mem_flatMap]
    constructor
    · rintro ⟨x, ⟨o, ho, hx⟩, hpx⟩
      exact ⟨o, ho, x, hx, hpx⟩
    · rintro ⟨o, ho, x, hx, hpx⟩
      exact ⟨x, ⟨o, ho, hx⟩, hpx⟩
  have hc : ∀ s : String,
      s ∈ ror_acronyms ror ↔ ∃ o ∈ ror, ∃ ac ∈ o.acronyms, pyLower ac = s := by
    intro s
    rw [ror_acronyms, mem_pyDedup]
    simp only [List.mem_map, List.mem_flatMap]
    constructor
    · rintro ⟨x, ⟨o, ho, hx⟩, hpx⟩
      exact ⟨o, ho, x, hx, hpx⟩
    · rintro ⟨o, ho, x, hx, hpx⟩
      exact ⟨x, ⟨o, ho, hx⟩, hpx⟩
  refine ⟨fun hab => ?_, ?_, ?_, ?_, ?_⟩
  · rw [lookupOrganization, lookupOrganization, hab]
    by_cases h1 : pyLower b ∈ ror_names ror
    · simp [h1]
    · by_cases h2 : pyLower b ∈ ror_aliases ror
      · simp [h1, h2]
      · by_cases h3 : pyLower b ∈ ror_acronyms ror
        · simp [h1, h2, h3]
        · simp [h1, h2, h3]
  · rw [← hn, ← ha, ← hc, lookupOrganization]
    by_cases h1 : pyLower a ∈ ror_names ror
    · simp [h1]
    · by_cases h2 : pyLower a ∈ ror_aliases ror
      · simp [h1, h2]
      · by_cases h3 : pyLower a ∈ ror_acronyms ror
        · simp [h1, h2, h3]
        · simp [h1, h2, h3]
  · intro h1
    rw [← hn] at h1
    simp [lookupOrganization, h1]
  · intro h1 h2
    rw [← hn] at h1
    rw [← ha] at h2
    simp [lookupOrganization, h1, h2]
  · intro h1 h2 h3
    rw [← hn] at h1
    rw [← ha] at h2
    rw [← hc] at h3
    simp [lookupOrganization, h1, h2, h3]

/-- Witness for `ror_match_case_invariant_and_priority`: on a one-entry
dataset, "ilri" and "ILRI" get the same acronym match. -/
theorem ror_match_case_invariant_and_priority_witness :
    (lookupOrganization (ror_names [⟨"Intl Livestock", ["ILRI Kenya"], ["ILRI"]⟩])
        (ror_aliases [⟨"Intl Livestock", ["ILRI Kenya"], ["ILRI"]⟩])
        (ror_acronyms [⟨"Intl Livestock", ["ILRI Kenya"], ["ILRI"]⟩]) "ilri").matched
      = (lookupOrganization (ror_names [⟨"Intl Livestock", ["ILRI Kenya"], ["ILRI"]⟩])
        (ror_aliases [⟨"Intl Livestock", ["ILRI Kenya"], ["ILRI"]⟩])
        (ror_acronyms [⟨"Intl Livestock", ["ILRI Kenya"], ["ILRI"]⟩]) "ILRI").matched ∧
    (lookupOrganization (ror_names [⟨"Intl Livestock", ["ILRI Kenya"], ["ILRI"]⟩])
        (ror_aliases [⟨"Intl Livestock", ["ILRI Kenya"], ["ILRI"]⟩])
        (ror_acronyms [⟨"Intl Livestock", ["ILRI Kenya"], ["ILRI"]⟩]) "ilri").matchType
      = "acronym" := by
  have h := ror_match_case_invariant_and_priority
    [⟨"Intl Livestock", ["ILRI Kenya"], ["ILRI"]⟩] "ilri" "ILRI"
  refine ⟨(h.1 (by decide)).1, ?_⟩
  refine h.2.2.2.2 ?_ ?_ ?_
  · decide
  · decide
  · decide

/-- Claim C4: a fix-script CSV row whose from-value equals its to-value, or
whose to-value contains the multi-value separator `|`, is skipped: the row
changes nothing (no statement, no report, no error) and the rest of the batch
is processed exactly as if the row were absent. -/
theorem fix_skip_guards (args : FixArgs) (now : Nat) (st : RunState)
    (row : String × String) (rs : List (String × String))
    (h : row.1 = row.2 ∨ row.2.data.contains '|' = true) :
    fixProcessRow args now st row = (st, none) ∧
    fixRunRows args now (row :: rs) st = fixRunRows args now rs st := by
  have h1 : fixProcessRow args now st row = (st, none) := by
    rcases h with h | h
    · simp [fixProcessRow, h]
    · by_cases he : row.1 = row.2
      · simp [fixProcessRow, he]
      · have h' : '|' ∈ row.2.data := by simpa using h
        simp [fixProcessRow, he, h']
  refine ⟨h1, ?_⟩
  rw [fixRunRows, h1]

/-- Witness for `fix_skip_guards`: an identical from/to row and a multi-value
row are both skipped while the following row is still processed. -/
theorem fix_skip_guards_witness :
    fixProcessRow ⟨false, false, "dc.title", "correct"⟩ 7
      ⟨sampleDB, [], []⟩ ("Old", "Old") = (⟨sampleDB, [], []⟩, none) ∧
    fixProcessRow ⟨false, false, "dc.title", "correct"⟩ 7
      ⟨sampleDB, [], []⟩ ("Old", "New|Other") = (⟨sampleDB, [], []⟩, none) ∧
    fixRunRows ⟨false, false, "dc.title", "correct"⟩ 7
        [("Old", "New|Other"), ("Old", "New")] ⟨sampleDB, [], []⟩
      = fixRunRows ⟨false, false, "dc.title", "correct"⟩ 7
        [("Old", "New")] ⟨sampleDB, [], []⟩ := by
  refine ⟨?_, ?_, ?_⟩
  · exact (fix_skip_guards ⟨false, false, "dc.title", "correct"⟩ 7
      ⟨sampleDB, [], []⟩ ("Old", "Old") [] (Or.inl rfl)).1
  · exact (fix_skip_guards ⟨false, false, "dc.title", "correct"⟩ 7
      ⟨sampleDB, [], []⟩ ("Old", "New|Other") [] (Or.inr (by decide))).1
  · exact (fix_skip_guards ⟨false, false, "dc.title", "correct"⟩ 7
      ⟨sampleDB, [], []⟩ ("Old", "New|Other") [("Old", "New")] (Or.inr (by decide))).2

/-- Claim C7: the fix and delete scripts exit 0 on success and 1 on database
connection failure or invalid CLI input; a user-named column missing from the
CSV header is reported with exit status 1 before any statement is issued
(empty trace, untouched database). -/
theorem script_exit_codes (fargs : FixArgs) (finp : FixCliInput)
    (dargs : DeleteArgs) (dinp : DeleteCliInput) (db : DB) (now : Nat) :
    (finp.header.contains fargs.from_field_name = false →
      fixScriptMain fargs finp db now = (1, ⟨db, [], []⟩)) ∧
    (finp.header.contains fargs.to_field_name = false →
      fixScriptMain fargs finp db now = (1, ⟨db, [], []⟩)) ∧
    (finp.dbAvailable = false → (fixScriptMain fargs finp db now).1 = 1) ∧
    (finp.header.contains fargs.from_field_name = true →
      finp.header.contains fargs.to_field_name = true →
      finp.dbAvailable = true →
      (fixRun fargs now finp.rows db).2 = none →
      (fixScriptMain fargs finp db now).1 = 0) ∧
    (dinp.header.contains dargs.from_field_name = false →
      deleteScriptMain dargs dinp db now = (1, ⟨db, [], []⟩)) ∧
    (dinp.dbAvailable = false → (deleteScriptMain dargs dinp db now).1 = 1) ∧
    (dinp.header.contains dargs.from_field_name = true →
      dinp.dbAvailable = true →
      (deleteRun dargs now dinp.rows db).2 = none →
      (deleteScriptMain dargs dinp db now).1 = 0) := by
  refine ⟨fun h => ?_, fun h => ?_, fun h => ?_, fun h1 h2 h3 h4 => ?_,
    fun h => ?_, fun h => ?_, fun h1 h2 h3 => ?_⟩
  · have h' : fargs.from_field_name ∉ finp.header := by simpa using h
    simp [fixScriptMain, h']
  · have h' : fargs.to_field_name ∉ finp.header := by simpa using h
    rw [fixScriptMain]
    by_cases hf : fargs.from_field_name ∈ finp.header
    · simp [hf, h']
    · simp [hf]
  · rw [fixScriptMain]
    by_cases hf : fargs.from_field_name ∈ finp.header
    · by_cases ht : fargs.to_field_name ∈ finp.header
      · simp [hf, ht, h]
      · simp [hf, ht]
    · simp [hf]
  · have h1' : fargs.from_field_name ∈ finp.header := by simpa using h1
    have h2' : fargs.to_field_name ∈ finp.header := by simpa using h2
    rw [fixScriptMain]
    rcases hrun : fixRun fargs now finp.rows db with ⟨st, err⟩
    rw [hrun] at h4
    simp only at h4
    subst h4
    simp [h1', h2', h3]
  · have h' : dargs.from_field_name ∉ dinp.header := by simpa using h
    simp [deleteScriptMain, h']
  · rw [deleteScriptMain]
    by_cases hf : dargs.from_field_name ∈ dinp.header
    · simp [hf, h]
    · simp [hf]
  · have h1' : dargs.from_field_name ∈ dinp.header := by simpa using h1
    rw [deleteScriptMain]
    rcases hrun : deleteRun dargs now dinp.rows db with ⟨st, err⟩
    rw [hrun] at h3
    simp only at h3
    subst h3
    simp [h1', h2]

/-- Witness for `script_exit_codes`: a missing CSV column exits 1 with no
statements issued; a clean run over `sampleDB` exits 0. -/
theorem script_exit_codes_witness :
    fixScriptMain ⟨false, false, "dc.title", "correct"⟩
      ⟨["wrong"], [("Old", "New")], true⟩ sampleDB 7 = (1, ⟨sampleDB, [], []⟩) ∧
    (fixScriptMain ⟨false, false, "dc.title", "correct"⟩
      ⟨["dc.title", "correct"], [("Old", "New")], true⟩ sampleDB 7).1 = 0 ∧
    (deleteScriptMain ⟨false, false, "dc.title"⟩
      ⟨["dc.title"], ["Old"], false⟩ sampleDB 7).1 = 1 := by
  refine ⟨?_, ?_, ?_⟩
  · exact (script_exit_codes ⟨false, false, "dc.title", "correct"⟩
      ⟨["wrong"], [("Old", "New")], true⟩ ⟨false, false, "dc.title"⟩
      ⟨["dc.title"], ["Old"], false⟩ sampleDB 7).1 (by decide)
  · exact (script_exit_codes ⟨false, false, "dc.title", "correct"⟩
      ⟨["dc.title", "correct"], [("Old", "New")], true⟩ ⟨false, false, "dc.title"⟩
      ⟨["dc.title"], ["Old"], false⟩ sampleDB 7).2.2.2.1
      (by decide) (by decide) (by decide) (by decide)
  · exact (script_exit_codes ⟨false, false, "dc.title", "correct"⟩
      ⟨["wrong"], [("Old", "New")], true⟩ ⟨false, false, "dc.title"⟩
      ⟨["dc.title"], ["Old"], false⟩ sampleDB 7).2.2.2.2.2.1 (by decide)

/-- Claim C2 (counterexample): field resolution fails the claim in two ways.
On an empty registry it does not produce an explicit not-found error — it
aborts with an unhandled `UnboundLocalError` (`PyErr.unboundLocalError` is the
embedding's only failure value), whereas the spec's `resolve_field` contract
(modelled by `resolve_field_spec`) would return `schemaNotFound "dc"`.  And
for the unqualified two-part name `dc.title`, the source's query does not
constrain the qualifier column, so on a registry where the qualified row
(id 65, qualifier `alternative`) precedes the unqualified row (id 64,
no qualifier) it returns 65 — not the identifier of the name's own
(schema, element, no-qualifier) triple, which is present as id 64. -/
theorem field_resolution_counterexample :
    field_name_to_field_id emptyDB "dc.title" = Except.error PyErr.unboundLocalError ∧
    resolve_field_spec emptyDB "dc.title"
      = Except.error (ResolveNotFound.schemaNotFound "dc") ∧
    field_name_to_field_id qualifiedFirstDB "dc.title" = Except.ok 65 ∧
    (⟨64, 1, "title", none⟩ : FieldRow) ∈ qualifiedFirstDB.fields := by
  refine ⟨rfl, rfl, rfl, ?_⟩
  decide

/-- Claim C2 (amended): resolution of a qualified field name (three parts,
nonempty qualifier) returns the integer identifier of a registry row matching
the full (schema, element, qualifier) triple when schema and field are
present.  For an unqualified two-part name — or a three-part name whose
qualifier is the empty string, which Python's truthiness treats like `None` —
the source's query does not constrain the qualifier column, so resolution
returns the identifier of some registry row matching only the schema and
element (not necessarily the row with no qualifier).  When the schema or the
field is absent, resolution aborts with the unhandled `UnboundLocalError`
(not an explicit not-found error). -/
theorem field_resolution_amended (db : DB) (schema element qualifier : String) :
    (qualifier ≠ "" → ∀ name, pySplitDot name = [schema, element, qualifier] →
      field_name_to_field_id db name = resolveFieldId db schema element (some qualifier)) ∧
    (∀ name, pySplitDot name = [schema, element] →
      field_name_to_field_id db name = resolveFieldId db schema element none) ∧
    (∀ name, pySplitDot name = [schema, element, ""] →
      field_name_to_field_id db name = resolveFieldId db schema element none) ∧
    ((∀ srow ∈ db.schemas, srow.short_id ≠ schema) →
      ∀ qopt : Option String, resolveFieldId db schema element qopt
        = Except.error PyErr.unboundLocalError) ∧
    (qualifier ≠ "" →
      ∀ fid, resolveFieldId db schema element (some qualifier) = Except.ok fid →
      ∃ srow ∈ db.schemas, srow.short_id = schema ∧
        ∃ frow ∈ db.fields, frow.metadata_schema_id = srow.metadata_schema_id ∧
          frow.element = element ∧ frow.qualifier = some qualifier ∧
          frow.metadata_field_id = fid) ∧
    (qualifier ≠ "" →
      (∃ srow ∈ db.schemas, srow.short_id = schema ∧
        ∃ frow ∈ db.fields, frow.metadata_schema_id = srow.metadata_schema_id ∧
          frow.element = element ∧ frow.qualifier = some qualifier) →
      (∀ s1 ∈ db.schemas, ∀ s2 ∈ db.schemas, s1.short_id = s2.short_id →
        s1.metadata_schema_id = s2.metadata_schema_id) →
      ∃ fid, resolveFieldId db schema element (some qualifier) = Except.ok fid) ∧
    (qualifier ≠ "" →
      ∀ srow, db.schemas.find? (fun r => r.short_id == schema) = some srow →
      (∀ frow ∈ db.fields, ¬(frow.metadata_schema_id = srow.metadata_schema_id ∧
        frow.element = element ∧ frow.qualifier = some qualifier)) →
      resolveFieldId db schema element (some qualifier)
        = Except.error PyErr.unboundLocalError) ∧
    (∀ fid, resolveFieldId db schema element none = Except.ok fid →
      ∃ srow ∈ db.schemas, srow.short_id = schema ∧
        ∃ frow ∈ db.fields, frow.metadata_schema_id = srow.metadata_schema_id ∧
          frow.element = element ∧ frow.metadata_field_id = fid) ∧
    ((∃ srow ∈ db.schemas, srow.short_id = schema ∧
        ∃ frow ∈ db.fields, frow.metadata_schema_id = srow.metadata_schema_id ∧
          frow.element = element) →
      (∀ s1 ∈ db.schemas, ∀ s2 ∈ db.schemas, s1.short_id = s2.short_id →
        s1.metadata_schema_id = s2.metadata_schema_id) →
      ∃ fid, resolveFieldId db schema element none = Except.ok fid) ∧
    (∀ srow, db.schemas.find? (fun r => r.short_id == schema) = some srow →
      (∀ frow ∈ db.fields, ¬(frow.metadata_schema_id = srow.metadata_schema_id ∧
        frow.element = element)) →
      resolveFieldId db schema element none
        = Except.error PyErr.unboundLocalError) := by
  refine ⟨fun _ name hsplit => ?_, fun name hsplit => ?_, fun name hsplit => ?_,
    fun habsent qopt => ?_, fun hq fid hok => ?_, fun hq hpresent huniq => ?_,
    fun hq srow hfind hnofield => ?_, fun fid hok => ?_, fun hpresent huniq => ?_,
    fun srow hfind hnofield => ?_⟩
  · rw [field_name_to_field_id, hsplit]
  · rw [field_name_to_field_id, hsplit]
  · rw [field_name_to_field_id, hsplit]
    exact resolveFieldId_empty_qualifier db schema element
  · have hnone : db.schemas.find? (fun r => r.short_id == schema) = none := by
      rw [List.find?_eq_none]
      intro r hr
      simpa using habsent r hr
    rw [resolveFieldId, lookupSchemaId, hnone]
    rfl
  · rw [resolveFieldId] at hok
    rcases hs : lookupSchemaId db schema with _ | sid
    · rw [hs] at hok
      exact absurd hok (by simp)
    · rw [hs] at hok
      simp only [hq, ne_eq, not_false_iff, if_true] at hok
      rcases hf : lookupFieldIdQualified db sid element qualifier with _ | fid'
      · rw [hf] at hok
        exact absurd hok (by simp)
      · rw [hf] at hok
        simp only [Except.ok.injEq] at hok
        rcases hsf : db.schemas.find? (fun r => r.short_id == schema) with _ | srow
        · rw [lookupSchemaId, hsf] at hs
          exact absurd hs (by simp)
        · have hsid : srow.metadata_schema_id = sid := by
            rw [lookupSchemaId, hsf] at hs
            simpa using hs
          have hsmem : srow ∈ db.schemas := List.mem_of_find?_eq_some hsf
          have hsname : srow.short_id = schema := by
            have := List.find?_some hsf
            simpa using this
          rcases hff : db.fields.find? (fun r =>
              r.metadata_schema_id == sid && r.element == element
                && r.qualifier == some qualifier) with _ | frow
          · rw [lookupFieldIdQualified, hff] at hf
            exact absurd hf (by simp)
          · have hfmem : frow ∈ db.fields := List.mem_of_find?_eq_some hff
            have hfpred := List.find?_some hff
            simp only [Bool.and_eq_true, beq_iff_eq] at hfpred
            have hffid : frow.metadata_field_id = fid' := by
              rw [lookupFieldIdQualified, hff] at hf
              simpa using hf
            exact ⟨srow, hsmem, hsname, frow, hfmem, by rw [hfpred.1.1, hsid],
              hfpred.1.2, hfpred.2, by rw [hffid, hok]⟩
  · rcases hpresent with ⟨srow, hsmem, hsname, frow, hfmem, hfsid, hfelem, hfqual⟩
    have hsome : (db.schemas.find? (fun r => r.short_id == schema)).isSome := by
      rw [List.find?_isSome]
      exact ⟨srow, hsmem, by simp [hsname]⟩
    rcases Option.isSome_iff_exists.mp hsome with ⟨srow', hsf⟩
    have hsname' : srow'.short_id = schema := by
      have := List.find?_some hsf
      simpa using this
    have hsid' : srow'.metadata_schema_id = srow.metadata_schema_id :=
      huniq srow' (List.mem_of_find?_eq_some hsf) srow hsmem (by rw [hsname', hsname])
    have hfsome : (db.fields.find? (fun r =>
        r.metadata_schema_id == srow'.metadata_schema_id && r.element == element
          && r.qualifier == some qualifier)).isSome := by
      rw [List.find?_isSome]
      refine ⟨frow, hfmem, ?_⟩
      simp [hfsid, hfelem, hfqual, hsid']
    rcases Option.isSome_iff_exists.mp hfsome with ⟨frow', hff⟩
    refine ⟨frow'.metadata_field_id, ?_⟩
    rw [resolveFieldId_some_schema db schema element qualifier hq srow' hsf]
    rw [lookupFieldIdQualified_eq, hff]
    rfl
  · have hfnone : db.fields.find? (fun r =>
        r.metadata_schema_id == srow.metadata_schema_id && r.element == element
          && r.qualifier == some qualifier) = none := by
      rw [List.find?_eq_none]
      intro frow hfr
      intro hpred
      simp only [Bool.and_eq_true, beq_iff_eq] at hpred
      exact hnofield frow hfr ⟨hpred.1.1, hpred.1.2, hpred.2⟩
    rw [resolveFieldId_some_schema db schema element qualifier hq srow hfind]
    rw [lookupFieldIdQualified_eq, hfnone]
    rfl
  · rw [resolveFieldId] at hok
    rcases hs : lookupSchemaId db schema with _ | sid
    · rw [hs] at hok
      exact absurd hok (by simp)
    · rw [hs] at hok
      dsimp only at hok
      rcases hf : lookupFieldIdUnqualified db sid element with _ | fid'
      · rw [hf] at hok
        exact absurd hok (by simp)
      · rw [hf] at hok
        simp only [Except.ok.injEq] at hok
        rcases hsf : db.schemas.find? (fun r => r.short_id == schema) with _ | srow
        · rw [lookupSchemaId, hsf] at hs
          exact absurd hs (by simp)
        · have hsid : srow.metadata_schema_id = sid := by
            rw [lookupSchemaId, hsf] at hs
            simpa using hs
          have hsmem : srow ∈ db.schemas := List.mem_of_find?_eq_some hsf
          have hsname : srow.short_id = schema := by
            have := List.find?_some hsf
            simpa using this
          rcases hff : db.fields.find? (fun r =>
              r.metadata_schema_id == sid && r.element == element) with _ | frow
          · rw [lookupFieldIdUnqualified, hff] at hf
            exact absurd hf (by simp)
          · have hfmem : frow ∈ db.fields := List.mem_of_find?_eq_some hff
            have hfpred := List.find?_some hff
            simp only [Bool.and_eq_true, beq_iff_eq] at hfpred
            have hffid : frow.metadata_field_id = fid' := by
              rw [lookupFieldIdUnqualified, hff] at hf
              simpa using hf
            exact ⟨srow, hsmem, hsname, frow, hfmem, by rw [hfpred.1, hsid],
              hfpred.2, by rw [hffid, hok]⟩
  · rcases hpresent with ⟨srow, hsmem, hsname, frow, hfmem, hfsid, hfelem⟩
    have hsome : (db.schemas.find? (fun r => r.short_id == schema)).isSome := by
      rw [List.find?_isSome]
      exact ⟨srow, hsmem, by simp [hsname]⟩
    rcases Option.isSome_iff_exists.mp hsome with ⟨srow', hsf⟩
    have hsname' : srow'.short_id = schema := by
      have := List.find?_some hsf
      simpa using this
    have hsid' : srow'.metadata_schema_id = srow.metadata_schema_id :=
      huniq srow' (List.mem_of_find?_eq_some hsf) srow hsmem (by rw [hsname', hsname])
    have hfsome : (db.fields.find? (fun r =>
        r.metadata_schema_id == srow'.metadata_schema_id
          && r.element == element)).isSome := by
      rw [List.find?_isSome]
      refine ⟨frow, hfmem, ?_⟩
      simp [hfsid, hfelem, hsid']
    rcases Option.isSome_iff_exists.mp hfsome with ⟨frow', hff⟩
    refine ⟨frow'.metadata_field_id, ?_⟩
    rw [resolveFieldId_none_schema db schema element srow' hsf]
    rw [lookupFieldIdUnqualified_eq, hff]
    rfl
  · have hfnone : db.fields.find? (fun r =>
        r.metadata_schema_id == srow.metadata_schema_id
          && r.element == element) = none := by
      rw [List.find?_eq_none]
      intro frow hfr
      intro hpred
      simp only [Bool.and_eq_true, beq_iff_eq] at hpred
      exact hnofield frow hfr ⟨hpred.1, hpred.2⟩
    rw [resolveFieldId_none_schema db schema element srow hfind]
    rw [lookupFieldIdUnqualified_eq, hfnone]
    rfl

/-- Witness for `field_resolution_amended`: on `sampleDB`, the qualified name
`dc.title.alternative` and the unqualified name `dc.title` both resolve to a
field id, while the absent field `dc.subject[.other]` raises the unhandled
error through either query. -/
theorem field_resolution_amended_witness :
    (∃ fid, resolveFieldId sampleDB "dc" "title" (some "alternative") = Except.ok fid) ∧
    (∃ fid, resolveFieldId sampleDB "dc" "title" none = Except.ok fid) ∧
    resolveFieldId sampleDB "dc" "subject" (some "other")
      = Except.error PyErr.unboundLocalError ∧
    resolveFieldId sampleDB "dc" "subject" none
      = Except.error PyErr.unboundLocalError := by
  have h := field_resolution_amended sampleDB "dc" "title" "alternative"
  have h2 := field_resolution_amended sampleDB "dc" "subject" "other"
  refine ⟨h.2.2.2.2.2.1 (by decide) ⟨⟨1, "dc"⟩, by decide, rfl,
      ⟨65, 1, "title", some "alternative"⟩, by decide, rfl, rfl, rfl⟩ ?_,
    h.2.2.2.2.2.2.2.2.1 ⟨⟨1, "dc"⟩, by decide, rfl,
      ⟨64, 1, "title", none⟩, by decide, rfl, rfl⟩ ?_,
    h2.2.2.2.2.2.2.1 (by decide) ⟨1, "dc"⟩ (by decide) ?_,
    h2.2.2.2.2.2.2.2.2.2 ⟨1, "dc"⟩ (by decide) ?_⟩
  · intro s1 h1 s2 hm2 hshort
    fin_cases h1 <;> fin_cases hm2 <;> rfl
  · intro s1 h1 s2 hm2 hshort
    fin_cases h1 <;> fin_cases hm2 <;> rfl
  · intro frow hfr
    fin_cases hfr <;> decide
  · intro frow hfr
    fin_cases hfr <;> decide

/-- Claim C1 (counterexample): in a single fix-script batch over `sampleDB`
(one input row, one distinct affected object `u1` carrying two identical
matching value triples), `update_item_last_modified` is invoked twice for
`u1`, not exactly once per distinct object. -/
theorem fix_touch_counterexample :
    ((fixRun ⟨false, false, "dc.title", "correct"⟩ 7 [("Old", "New")] sampleDB).1.events.filter
        (fun e => e == DbEvent.touchItem "u1")).length = 2 ∧
    pyDedup (selectObjectIds sampleDB 64 "Old") = ["u1"] := by
  constructor
  · decide
  · decide

/-- Claim C1 (amended): in a non-dry-run fix-script row,
`update_item_last_modified` is invoked once per matching metadata-value row —
for each object, as many times as that object has matching value triples (so
at least once per distinct affected object, but more than once when several
of its values match), not exactly once per distinct object. -/
theorem fix_touch_per_matching_value (args : FixArgs) (now : Nat) (db : DB)
    (fv tv u : String) (fid : Nat)
    (hdry : args.dry_run = false) (hneq : fv ≠ tv)
    (hsep : tv.data.contains '|' = false)
    (hfid : field_name_to_field_id db args.from_field_name = Except.ok fid) :
    (((fixProcessRow args now ⟨db, [], []⟩ (fv, tv)).1.events.filter
        (fun e => e == DbEvent.touchItem u)).length)
      = (db.metadatavalue.filter
          (fun mv => mvMatches db fid fv mv && mv.dspace_object_id == u)).length := by
  by_cases hpos : 0 < (selectObjectIds db fid fv).length
  · have hev : (fixProcessRow args now ⟨db, [], []⟩ (fv, tv)).1.events
        = [DbEvent.selectIds fid fv, DbEvent.updateTextValue tv fid fv]
          ++ (selectObjectIds db fid fv).map DbEvent.touchItem := by
      rw [fixProcessRow_update args now ⟨db, [], []⟩ fv tv fid hdry hneq hsep hfid hpos]
      rw [show (touchAll now
          ⟨(sqlUpdateTextValue db tv fid fv).1,
           (([] : List DbEvent) ++ [.selectIds fid fv]) ++ [.updateTextValue tv fid fv],
           ([] : List Nat) ++ (if (sqlUpdateTextValue db tv fid fv).2 > 0 && !args.quiet
             then [(sqlUpdateTextValue db tv fid fv).2] else [])⟩
          (selectObjectIds db fid fv), (none : Option PyErr)).1.events
        = (touchAll now
          ⟨(sqlUpdateTextValue db tv fid fv).1,
           (([] : List DbEvent) ++ [.selectIds fid fv]) ++ [.updateTextValue tv fid fv],
           ([] : List Nat) ++ (if (sqlUpdateTextValue db tv fid fv).2 > 0 && !args.quiet
             then [(sqlUpdateTextValue db tv fid fv).2] else [])⟩
          (selectObjectIds db fid fv)).events from rfl]
      rw [touchAll_events]
      simp
    rw [hev, List.filter_append, List.length_append]
    have hpre : (([DbEvent.selectIds fid fv, DbEvent.updateTextValue tv fid fv] :
        List DbEvent).filter (fun e => e == DbEvent.touchItem u)).length = 0 := by
      simp
    rw [hpre, count_touch_map]
    rw [selectObjectIds, count_ids_eq_count_matching]
    simp
  · have hzero : (selectObjectIds db fid fv).length = 0 := by omega
    rw [fixProcessRow_nomatch args now ⟨db, [], []⟩ fv tv fid hneq hsep hfid hzero]
    have hids : selectObjectIds db fid fv = [] := List.length_eq_zero.mp hzero
    have hmv : db.metadatavalue.filter (mvMatches db fid fv) = [] := by
      rw [selectObjectIds] at hids
      exact List.map_eq_nil_iff.mp hids
    have hall : ∀ mv ∈ db.metadatavalue, mvMatches db fid fv mv = false := by
      intro mv hm
      have := List.filter_eq_nil_iff.mp hmv mv hm
      cases hx : mvMatches db fid fv mv
      · rfl
      · exact absurd hx this
    have hsub : db.metadatavalue.filter
        (fun mv => mvMatches db fid fv mv && mv.dspace_object_id == u) = [] := by
      rw [List.filter_eq_nil_iff]
      intro mv hm
      rw [hall mv hm]
      simp
    rw [hsub]
    simp

/-- Witness for `fix_touch_per_matching_value`: on `sampleDB`, object `u1` is
touched twice in one row because it carries two matching value triples. -/
theorem fix_touch_per_matching_value_witness :
    (((fixProcessRow ⟨false, false, "dc.title", "correct"⟩ 7
        ⟨sampleDB, [], []⟩ ("Old", "New")).1.events.filter
        (fun e => e == DbEvent.touchItem "u1")).length) = 2 := by
  have h := fix_touch_per_matching_value ⟨false, false, "dc.title", "correct"⟩ 7 sampleDB
    "Old" "New" "u1" 64 rfl (by decide) (by decide) (by rfl)
  rw [h]
  decide

/-- Counting changed positions after a selective map: exactly the selected
elements change when the rewrite genuinely alters them. -/
theorem zip_selective_map_changed {α : Type} [DecidableEq α] (l : List α)
    (p : α → Bool) (g : α → α) (h2 : ∀ x, p x = true → g x ≠ x) :
    ((l.zip (l.map (fun x => if p x then g x else x))).filter
        (fun q => decide (q.1 ≠ q.2))).length
      = (l.filter p).length := by
  induction l with
  | nil => rfl
  | cons x xs ih =>
      rw [List.map_cons, List.zip_cons_cons]
      by_cases hp : p x = true
      · have hne : x ≠ g x := fun he => h2 x hp he.symm
        simp only [hp, if_true]
        rw [List.filter_cons, List.filter_cons, if_pos (decide_eq_true hne), if_pos hp]
        rw [List.length_cons, List.length_cons, ih]
      · have hp' : p x = false := by
          cases hpx : p x
          · rfl
          · exact absurd hpx hp
        simp only [hp', Bool.false_eq_true, if_false]
        rw [List.filter_cons, List.filter_cons, if_neg (by simp), if_neg (by simp [hp'])]
        exact ih

/-- A dry-run fix-script row adds no write statement to the trace and no
commit. -/
theorem fixProcessRow_dry_events (args : FixArgs) (now : Nat) (st : RunState)
    (row : String × String) (hdry : args.dry_run = true) :
    (fixProcessRow args now st row).1.events.filter DbEvent.isWriteStatement
      = st.events.filter DbEvent.isWriteStatement ∧
    (DbEvent.commit ∈ (fixProcessRow args now st row).1.events →
      DbEvent.commit ∈ st.events) := by
  rw [fixProcessRow]
  repeat' split
  all_goals dsimp only
  all_goals try split_ifs
  all_goals exact ⟨by simp [DbEvent.isWriteStatement], fun h => by simpa using h⟩

/-- A dry-run delete-script row adds no write statement to the trace and no
commit. -/
theorem deleteProcessRow_dry_events (args : DeleteArgs) (now : Nat) (st : RunState)
    (value : String) (hdry : args.dry_run = true) :
    (deleteProcessRow args now st value).1.events.filter DbEvent.isWriteStatement
      = st.events.filter DbEvent.isWriteStatement ∧
    (DbEvent.commit ∈ (deleteProcessRow args now st value).1.events →
      DbEvent.commit ∈ st.events) := by
  rw [deleteProcessRow]
  repeat' split
  all_goals dsimp only
  all_goals try split_ifs
  all_goals exact ⟨by simp [DbEvent.isWriteStatement], fun h => by simpa using h⟩

/-- A dry-run move-script line adds no write statement to the trace (it does
add its `with conn:` commit). -/
theorem moveProcessLine_dry_events (args : MoveArgs) (now : Nat) (st : RunState)
    (line : String) (hdry : args.dry_run = true) :
    (moveProcessLine args now st line).1.events.filter DbEvent.isWriteStatement
      = st.events.filter DbEvent.isWriteStatement := by
  rw [moveProcessLine]
  repeat' split
  all_goals dsimp only
  all_goals try split_ifs
  all_goals simp [DbEvent.isWriteStatement]

/-- The whole dry-run fix-script row loop adds no write statement and no
commit. -/
theorem fixRunRows_dry_events (args : FixArgs) (now : Nat) (hdry : args.dry_run = true)
    (rows : List (String × String)) :
    ∀ st : RunState,
      (fixRunRows args now rows st).1.events.filter DbEvent.isWriteStatement
        = st.events.filter DbEvent.isWriteStatement ∧
      (DbEvent.commit ∈ (fixRunRows args now rows st).1.events →
        DbEvent.commit ∈ st.events) := by
  induction rows with
  | nil => intro st; exact ⟨rfl, fun h => h⟩
  | cons r rs ih =>
      intro st
      rw [fixRunRows]
      obtain ⟨hw1, hc1⟩ := fixProcessRow_dry_events args now st r hdry
      rcases hpr : fixProcessRow args now st r with ⟨st2, err⟩
      rw [hpr] at hw1 hc1
      cases err with
      | none =>
          obtain ⟨hw2, hc2⟩ := ih st2
          exact ⟨hw2.trans hw1, fun h => hc1 (hc2 h)⟩
      | some e => exact ⟨hw1, hc1⟩

/-- The whole dry-run delete-script row loop adds no write statement and no
commit. -/
theorem deleteRunRows_dry_events (args : DeleteArgs) (now : Nat) (hdry : args.dry_run = true)
    (rows : List String) :
    ∀ st : RunState,
      (deleteRunRows args now rows st).1.events.filter DbEvent.isWriteStatement
        = st.events.filter DbEvent.isWriteStatement ∧
      (DbEvent.commit ∈ (deleteRunRows args now rows st).1.events →
        DbEvent.commit ∈ st.events) := by
  induction rows with
  | nil => intro st; exact ⟨rfl, fun h => h⟩
  | cons r rs ih =>
      intro st
      rw [deleteRunRows]
      obtain ⟨hw1, hc1⟩ := deleteProcessRow_dry_events args now st r hdry
      rcases hpr : deleteProcessRow args now st r with ⟨st2, err⟩
      rw [hpr] at hw1 hc1
      cases err with
      | none =>
          obtain ⟨hw2, hc2⟩ := ih st2
          exact ⟨hw2.trans hw1, fun h => hc1 (hc2 h)⟩
      | some e => exact ⟨hw1, hc1⟩

/-- The whole dry-run move-script line loop adds no write statement. -/
theorem moveRunRows_dry_events (args : MoveArgs) (now : Nat) (hdry : args.dry_run = true)
    (lines : List String) :
    ∀ st : RunState,
      (moveRunRows args now lines st).1.events.filter DbEvent.isWriteStatement
        = st.events.filter DbEvent.isWriteStatement := by
  induction lines with
  | nil => intro st; rfl
  | cons r rs ih =>
      intro st
      rw [moveRunRows]
      have hw1 := moveProcessLine_dry_events args now st r hdry
      rcases hpr : moveProcessLine args now st r with ⟨st2, err⟩
      rw [hpr] at hw1
      cases err with
      | none => exact (ih st2).trans hw1
      | some e => exact hw1

/-- Claim C3 (counterexample): even in dry-run mode the move script commits a
transaction on every processed line (psycopg2's `with conn:` commits on clean
block exit), so "no transaction is committed" fails: over `sampleDB`, the
dry-run trace for one matching line is the count SELECT followed by a commit. -/
theorem dry_run_commit_counterexample :
    (moveRun ⟨true, false, "dc.title", "dc.title.alternative"⟩ 7 ["Old"] sampleDB).1.events
      = [DbEvent.selectIds 64 "Old", DbEvent.commit] ∧
    DbEvent.commit ∈
      (moveRun ⟨true, false, "dc.title", "dc.title.alternative"⟩ 7 ["Old"] sampleDB).1.events := by
  constructor
  · decide
  · decide

/-- Claim C3 (amended): with the dry-run flag set, no script ever issues a
write statement (UPDATE/DELETE/INSERT), for any input; the fix and delete
scripts also commit nothing, while the move script still commits its per-line
read-only transactions. -/
theorem dry_run_no_write_statements (now : Nat) (db : DB) :
    (∀ args : FixArgs, args.dry_run = true → ∀ rows,
      (fixRun args now rows db).1.events.filter DbEvent.isWriteStatement = [] ∧
      DbEvent.commit ∉ (fixRun args now rows db).1.events) ∧
    (∀ args : DeleteArgs, args.dry_run = true → ∀ rows,
      (deleteRun args now rows db).1.events.filter DbEvent.isWriteStatement = [] ∧
      DbEvent.commit ∉ (deleteRun args now rows db).1.events) ∧
    (∀ args : MoveArgs, args.dry_run = true → ∀ lines,
      (moveRun args now lines db).1.events.filter DbEvent.isWriteStatement = []) := by
  refine ⟨fun args hdry rows => ?_, fun args hdry rows => ?_, fun args hdry lines => ?_⟩
  · obtain ⟨hw, hc⟩ := fixRunRows_dry_events args now hdry rows ⟨db, [], []⟩
    rw [fixRun]
    rcases hrun : fixRunRows args now rows ⟨db, [], []⟩ with ⟨st, err⟩
    rw [hrun] at hw hc
    cases err with
    | none =>
        rw [show ((match ((st, (none : Option PyErr)) : RunState × Option PyErr) with
          | (st, some e) => (st, some e)
          | (st, none) => if !args.dry_run then
              (⟨st.db, st.events ++ [DbEvent.commit], st.reports⟩, none) else (st, none))
            : RunState × Option PyErr)
          = if !args.dry_run then
              (⟨st.db, st.events ++ [DbEvent.commit], st.reports⟩, (none : Option PyErr))
            else (st, none) from rfl]
        rw [hdry]
        exact ⟨hw, fun h => by simpa using hc h⟩
    | some e => exact ⟨hw, fun h => by simpa using hc h⟩
  · obtain ⟨hw, hc⟩ := deleteRunRows_dry_events args now hdry rows ⟨db, [], []⟩
    rw [deleteRun]
    rcases hrun : deleteRunRows args now rows ⟨db, [], []⟩ with ⟨st, err⟩
    rw [hrun] at hw hc
    cases err with
    | none =>
        rw [show ((match ((st, (none : Option PyErr)) : RunState × Option PyErr) with
          | (st, some e) => (st, some e)
          | (st, none) => if !args.dry_run then
              (⟨st.db, st.events ++ [DbEvent.commit], st.reports⟩, none) else (st, none))
            : RunState × Option PyErr)
          = if !args.dry_run then
              (⟨st.db, st.events ++ [DbEvent.commit], st.reports⟩, (none : Option PyErr))
            else (st, none) from rfl]
        rw [hdry]
        exact ⟨hw, fun h => by simpa using hc h⟩
    | some e => exact ⟨hw, fun h => by simpa using hc h⟩
  · exact moveRunRows_dry_events args now hdry lines ⟨db, [], []⟩

/-- Witness for `dry_run_no_write_statements`: concrete dry runs over
`sampleDB` for all three scripts. -/
theorem dry_run_no_write_statements_witness :
    (fixRun ⟨true, false, "dc.title", "correct"⟩ 7 [("Old", "New")] sampleDB).1.events.filter
      DbEvent.isWriteStatement = [] ∧
    DbEvent.commit ∉ (deleteRun ⟨true, false, "dc.title"⟩ 7 ["Old"] sampleDB).1.events ∧
    (moveRun ⟨true, false, "dc.title", "dc.title.alternative"⟩ 7
      ["Old"] sampleDB).1.events.filter DbEvent.isWriteStatement = [] := by
  have h := dry_run_no_write_statements 7 sampleDB
  exact ⟨(h.1 ⟨true, false, "dc.title", "correct"⟩ rfl [("Old", "New")]).1,
    (h.2.1 ⟨true, false, "dc.title"⟩ rfl ["Old"]).2,
    h.2.2 ⟨true, false, "dc.title", "dc.title.alternative"⟩ rfl ["Old"]⟩

/-- Claim C6: in non-dry-run mode, the count the fix script reports for a row
equals the number of metadata-value rows actually changed by the UPDATE, and
when nothing matches the field id and from-value the count is zero, nothing is
reported, and no write statement is issued. -/
theorem fix_reported_count (args : FixArgs) (now : Nat) (db : DB)
    (fv tv : String) (fid : Nat)
    (hdry : args.dry_run = false) (hquiet : args.quiet = false)
    (hneq : fv ≠ tv) (hsep : tv.data.contains '|' = false)
    (hfid : field_name_to_field_id db args.from_field_name = Except.ok fid) :
    ((fixProcessRow args now ⟨db, [], []⟩ (fv, tv)).1.reports
       = (if (db.metadatavalue.filter (mvMatches db fid fv)).length = 0 then []
          else [(db.metadatavalue.filter (mvMatches db fid fv)).length])) ∧
    ((db.metadatavalue.zip
        (fixProcessRow args now ⟨db, [], []⟩ (fv, tv)).1.db.metadatavalue).filter
        (fun q => decide (q.1 ≠ q.2))).length
      = (db.metadatavalue.filter (mvMatches db fid fv)).length ∧
    ((db.metadatavalue.filter (mvMatches db fid fv)).length = 0 →
      (fixProcessRow args now ⟨db, [], []⟩ (fv, tv)).1.db = db ∧
      (fixProcessRow args now ⟨db, [], []⟩ (fv, tv)).1.events
        = [DbEvent.selectIds fid fv]) := by
  have hlen : (selectObjectIds db fid fv).length
      = (db.metadatavalue.filter (mvMatches db fid fv)).length := by
    rw [selectObjectIds, List.length_map]
  by_cases hn : (db.metadatavalue.filter (mvMatches db fid fv)).length = 0
  · have hzero : (selectObjectIds db fid fv).length = 0 := by rw [hlen, hn]
    rw [fixProcessRow_nomatch args now ⟨db, [], []⟩ fv tv fid hneq hsep hfid hzero]
    refine ⟨by simp [hn], ?_, fun _ => ⟨rfl, by simp⟩⟩
    have hself : ∀ (m : List MetadataValue),
        (m.zip m).filter (fun q => decide (q.1 ≠ q.2)) = [] := by
      intro m
      induction m with
      | nil => rfl
      | cons x xs ih =>
          rw [List.zip_cons_cons, List.filter_cons, if_neg (by simp)]
          exact ih
    show ((db.metadatavalue.zip db.metadatavalue).filter
        (fun q => decide (q.1 ≠ q.2))).length
      = (db.metadatavalue.filter (mvMatches db fid fv)).length
    rw [hself db.metadatavalue, hn]
    rfl
  · have hpos : 0 < (selectObjectIds db fid fv).length := by
      rw [hlen]
      omega
    rw [fixProcessRow_update args now ⟨db, [], []⟩ fv tv fid hdry hneq hsep hfid hpos]
    have hrep : (touchAll now
        ⟨(sqlUpdateTextValue db tv fid fv).1,
         (([] : List DbEvent) ++ [.selectIds fid fv]) ++ [.updateTextValue tv fid fv],
         ([] : List Nat) ++ (if (sqlUpdateTextValue db tv fid fv).2 > 0 && !args.quiet
           then [(sqlUpdateTextValue db tv fid fv).2] else [])⟩
        (selectObjectIds db fid fv)).reports
        = ([] : List Nat) ++ (if (sqlUpdateTextValue db tv fid fv).2 > 0 && !args.quiet
           then [(sqlUpdateTextValue db tv fid fv).2] else []) := touchAll_reports _ _ _
    have hmv : (touchAll now
        ⟨(sqlUpdateTextValue db tv fid fv).1,
         (([] : List DbEvent) ++ [.selectIds fid fv]) ++ [.updateTextValue tv fid fv],
         ([] : List Nat) ++ (if (sqlUpdateTextValue db tv fid fv).2 > 0 && !args.quiet
           then [(sqlUpdateTextValue db tv fid fv).2] else [])⟩
        (selectObjectIds db fid fv)).db.metadatavalue
        = (sqlUpdateTextValue db tv fid fv).1.metadatavalue := touchAll_metadatavalue _ _ _
    refine ⟨?_, ?_, fun h0 => absurd h0 hn⟩
    · rw [show (touchAll now
        ⟨(sqlUpdateTextValue db tv fid fv).1,
         (([] : List DbEvent) ++ [.selectIds fid fv]) ++ [.updateTextValue tv fid fv],
         ([] : List Nat) ++ (if (sqlUpdateTextValue db tv fid fv).2 > 0 && !args.quiet
           then [(sqlUpdateTextValue db tv fid fv).2] else [])⟩
        (selectObjectIds db fid fv), (none : Option PyErr)).1
        = touchAll now
        ⟨(sqlUpdateTextValue db tv fid fv).1,
         (([] : List DbEvent) ++ [.selectIds fid fv]) ++ [.updateTextValue tv fid fv],
         ([] : List Nat) ++ (if (sqlUpdateTextValue db tv fid fv).2 > 0 && !args.quiet
           then [(sqlUpdateTextValue db tv fid fv).2] else [])⟩
        (selectObjectIds db fid fv) from rfl, hrep]
      have hcnt : (sqlUpdateTextValue db tv fid fv).2
          = (db.metadatavalue.filter (mvMatches db fid fv)).length := rfl
      simp only [hcnt]
      simp [hquiet, hn, Nat.pos_of_ne_zero hn]
    · rw [show (touchAll now
        ⟨(sqlUpdateTextValue db tv fid fv).1,
         (([] : List DbEvent) ++ [.selectIds fid fv]) ++ [.updateTextValue tv fid fv],
         ([] : List Nat) ++ (if (sqlUpdateTextValue db tv fid fv).2 > 0 && !args.quiet
           then [(sqlUpdateTextValue db tv fid fv).2] else [])⟩
        (selectObjectIds db fid fv), (none : Option PyErr)).1
        = touchAll now
        ⟨(sqlUpdateTextValue db tv fid fv).1,
         (([] : List DbEvent) ++ [.selectIds fid fv]) ++ [.updateTextValue tv fid fv],
         ([] : List Nat) ++ (if (sqlUpdateTextValue db tv fid fv).2 > 0 && !args.quiet
           then [(sqlUpdateTextValue db tv fid fv).2] else [])⟩
        (selectObjectIds db fid fv) from rfl, hmv]
      have hupd : (sqlUpdateTextValue db tv fid fv).1.metadatavalue
          = db.metadatavalue.map (fun mv =>
              if mvMatches db fid fv mv then
                ⟨mv.dspace_object_id, mv.metadata_field_id, tv⟩ else mv) := rfl
      rw [hupd]
      refine zip_selective_map_changed db.metadatavalue (mvMatches db fid fv)
        (fun mv => ⟨mv.dspace_object_id, mv.metadata_field_id, tv⟩) ?_
      intro x hx
      intro he
      have htext : x.text_value = fv := by
        have := hx
        rw [mvMatches] at this
        simp only [Bool.and_eq_true, beq_iff_eq] at this
        exact this.2
      have : tv = x.text_value := congrArg MetadataValue.text_value he
      rw [htext] at this
      exact hneq this.symm

/-- Witness for `fix_reported_count`: the row `("Old", "New")` over `sampleDB`
reports the two changed value rows. -/
theorem fix_reported_count_witness :
    (fixProcessRow ⟨false, false, "dc.title", "correct"⟩ 7
        ⟨sampleDB, [], []⟩ ("Old", "New")).1.reports = [2] := by
  have h := fix_reported_count ⟨false, false, "dc.title", "correct"⟩ 7 sampleDB
    "Old" "New" 64 rfl rfl (by decide) (by decide) (by rfl)
  rw [h.1]
  decide


/-- `archivedUuids` is a function of the items' shape. -/
theorem archivedUuids_shape (db1 db2 : DB) (h : itemsShape db1 = itemsShape db2) :
    archivedUuids db1 = archivedUuids db2 := by
  have key : ∀ (l : List Item),
      (l.filter (fun i => i.in_archive && !i.withdrawn)).map (fun i => i.uuid)
        = ((l.map (fun i => (i.uuid, i.in_archive, i.withdrawn))).filter
            (fun t => t.2.1 && !t.2.2)).map (fun t => t.1) := by
    intro l
    induction l with
    | nil => rfl
    | cons i is ih =>
        by_cases hp : (i.in_archive && !i.withdrawn) = true
        · simp only [List.filter_cons, List.map_cons, hp, if_true]
          rw [ih]
        · have hp' : (i.in_archive && !i.withdrawn) = false := by
            cases hx : (i.in_archive && !i.withdrawn)
            · rfl
            · exact absurd hx hp
          simp only [List.filter_cons, List.map_cons, hp', Bool.false_eq_true, if_false]
          exact ih
  rw [archivedUuids, archivedUuids, key, key]
  rw [show db1.items.map (fun i => (i.uuid, i.in_archive, i.withdrawn)) = itemsShape db1
    from rfl]
  rw [show db2.items.map (fun i => (i.uuid, i.in_archive, i.withdrawn)) = itemsShape db2
    from rfl]
  rw [h]

/-- Touching an item's timestamp does not change the items' shape. -/
theorem itemsShape_update_last_modified (db : DB) (u : String) (now : Nat) :
    itemsShape (update_item_last_modified db u now) = itemsShape db := by
  have key : ∀ (l : List Item),
      (l.map (fun i =>
        if i.uuid == u then (⟨i.uuid, i.in_archive, i.withdrawn, now⟩ : Item) else i)).map
          (fun i => (i.uuid, i.in_archive, i.withdrawn))
        = l.map (fun i => (i.uuid, i.in_archive, i.withdrawn)) := by
    intro l
    induction l with
    | nil => rfl
    | cons i is ih =>
        by_cases hi : (i.uuid == u) = true
        · simp only [List.map_cons, hi, if_true]
          rw [ih]
        · have hi' : (i.uuid == u) = false := by
            cases hx : (i.uuid == u)
            · rfl
            · exact absurd hx hi
          simp only [List.map_cons, hi', Bool.false_eq_true, if_false]
          rw [ih]
  rw [itemsShape, itemsShape, update_item_last_modified]
  exact key db.items

/-- `touchAll` does not change the items' shape. -/
theorem touchAll_itemsShape (now : Nat) (ids : List String) :
    ∀ st : RunState, itemsShape (touchAll now st ids).db = itemsShape st.db := by
  induction ids with
  | nil => intro st; rfl
  | cons u us ih =>
      intro st
      rw [touchAll_cons, ih]
      exact itemsShape_update_last_modified st.db u now

/-- The fix script's UPDATE leaves metadata values of objects outside the
archived scope untouched. -/
theorem sqlUpdate_preserves_bad (db : DB) (toV : String) (fid : Nat) (fromV : String)
    (u : String) (hu : (archivedUuids db).contains u = false) :
    (sqlUpdateTextValue db toV fid fromV).1.metadatavalue.filter
      (fun mv => mv.dspace_object_id == u)
    = db.metadatavalue.filter (fun mv => mv.dspace_object_id == u) := by
  refine filter_map_of_fix db.metadatavalue _ _ ?_ ?_
  · intro x hx
    have hobj : x.dspace_object_id = u := by simpa using hx
    have hm : mvMatches db fid fromV x = false := by
      rw [mvMatches, hobj, hu]
      rfl
    simp [hm]
  · intro x
    by_cases hm : mvMatches db fid fromV x = true
    · simp [hm]
    · have hm' : mvMatches db fid fromV x = false := by
        cases hx : mvMatches db fid fromV x
        · rfl
        · exact absurd hx hm
      simp [hm']

/-- The move script's UPDATE leaves metadata values of objects outside the
archived scope untouched. -/
theorem sqlMove_preserves_bad (db : DB) (toFid fromFid : Nat) (v : String)
    (u : String) (hu : (archivedUuids db).contains u = false) :
    (sqlMoveFieldId db toFid fromFid v).1.metadatavalue.filter
      (fun mv => mv.dspace_object_id == u)
    = db.metadatavalue.filter (fun mv => mv.dspace_object_id == u) := by
  refine filter_map_of_fix db.metadatavalue _ _ ?_ ?_
  · intro x hx
    have hobj : x.dspace_object_id = u := by simpa using hx
    have hm : mvMatches db fromFid v x = false := by
      rw [mvMatches, hobj, hu]
      rfl
    simp [hm]
  · intro x
    by_cases hm : mvMatches db fromFid v x = true
    · simp [hm]
    · have hm' : mvMatches db fromFid v x = false := by
        cases hx : mvMatches db fromFid v x
        · rfl
        · exact absurd hx hm
      simp [hm']

/-- The delete script's DELETE leaves metadata values of objects outside the
archived scope untouched. -/
theorem sqlDelete_preserves_bad (db : DB) (fid : Nat) (v : String)
    (u : String) (hu : (archivedUuids db).contains u = false) :
    (sqlDeleteValues db fid v).1.metadatavalue.filter
      (fun mv => mv.dspace_object_id == u)
    = db.metadatavalue.filter (fun mv => mv.dspace_object_id == u) := by
  refine filter_not_p_filter db.metadatavalue _ _ ?_
  intro x hx
  have hobj : x.dspace_object_id = u := by simpa using hx
  rw [mvMatches, hobj, hu]
  rfl

/-- One fix-script row preserves the items' shape and the metadata values of
any object outside the archived scope. -/
theorem fixProcessRow_preserves_bad (args : FixArgs) (now : Nat) (db0 : DB) (u : String)
    (hu : (archivedUuids db0).contains u = false) (st : RunState) (row : String × String)
    (hshape : itemsShape st.db = itemsShape db0)
    (hbad : st.db.metadatavalue.filter (fun mv => mv.dspace_object_id == u)
      = db0.metadatavalue.filter (fun mv => mv.dspace_object_id == u)) :
    itemsShape (fixProcessRow args now st row).1.db = itemsShape db0 ∧
    (fixProcessRow args now st row).1.db.metadatavalue.filter
      (fun mv => mv.dspace_object_id == u)
      = db0.metadatavalue.filter (fun mv => mv.dspace_object_id == u) := by
  have hu' : (archivedUuids st.db).contains u = false := by
    rw [archivedUuids_shape st.db db0 hshape]
    exact hu
  rw [fixProcessRow]
  repeat' split
  all_goals dsimp only
  all_goals try split_ifs
  all_goals try exact ⟨hshape, hbad⟩
  all_goals refine ⟨?_, ?_⟩
  all_goals try (rw [touchAll_itemsShape]; exact hshape)
  all_goals (rw [touchAll_metadatavalue]
             exact (sqlUpdate_preserves_bad st.db _ _ _ u hu').trans hbad)

/-- One delete-script row preserves the items' shape and the metadata values
of any object outside the archived scope. -/
theorem deleteProcessRow_preserves_bad (args : DeleteArgs) (now : Nat) (db0 : DB) (u : String)
    (hu : (archivedUuids db0).contains u = false) (st : RunState) (value : String)
    (hshape : itemsShape st.db = itemsShape db0)
    (hbad : st.db.metadatavalue.filter (fun mv => mv.dspace_object_id == u)
      = db0.metadatavalue.filter (fun mv => mv.dspace_object_id == u)) :
    itemsShape (deleteProcessRow args now st value).1.db = itemsShape db0 ∧
    (deleteProcessRow args now st value).1.db.metadatavalue.filter
      (fun mv => mv.dspace_object_id == u)
      = db0.metadatavalue.filter (fun mv => mv.dspace_object_id == u) := by
  have hu' : (archivedUuids st.db).contains u = false := by
    rw [archivedUuids_shape st.db db0 hshape]
    exact hu
  rw [deleteProcessRow]
  repeat' split
  all_goals dsimp only
  all_goals try split_ifs
  all_goals try exact ⟨hshape, hbad⟩
  all_goals refine ⟨?_, ?_⟩
  all_goals try (rw [touchAll_itemsShape]; exact hshape)
  all_goals (rw [touchAll_metadatavalue]
             exact (sqlDelete_preserves_bad st.db _ _ u hu').trans hbad)

/-- One move-script line preserves the items' shape and the metadata values of
any object outside the archived scope. -/
theorem moveProcessLine_preserves_bad (args : MoveArgs) (now : Nat) (db0 : DB) (u : String)
    (hu : (archivedUuids db0).contains u = false) (st : RunState) (line : String)
    (hshape : itemsShape st.db = itemsShape db0)
    (hbad : st.db.metadatavalue.filter (fun mv => mv.dspace_object_id == u)
      = db0.metadatavalue.filter (fun mv => mv.dspace_object_id == u)) :
    itemsShape (moveProcessLine args now st line).1.db = itemsShape db0 ∧
    (moveProcessLine args now st line).1.db.metadatavalue.filter
      (fun mv => mv.dspace_object_id == u)
      = db0.metadatavalue.filter (fun mv => mv.dspace_object_id == u) := by
  have hu' : (archivedUuids st.db).contains u = false := by
    rw [archivedUuids_shape st.db db0 hshape]
    exact hu
  rw [moveProcessLine]
  repeat' split
  all_goals dsimp only
  all_goals try split_ifs
  all_goals try exact ⟨hshape, hbad⟩
  all_goals refine ⟨?_, ?_⟩
  all_goals try (rw [touchAll_itemsShape]; exact hshape)
  all_goals (rw [touchAll_metadatavalue]
             exact (sqlMove_preserves_bad st.db _ _ _ u hu').trans hbad)

/-- The whole fix-script row loop preserves the metadata values of any object
outside the archived scope. -/
theorem fixRunRows_preserves_bad (args : FixArgs) (now : Nat) (db0 : DB) (u : String)
    (hu : (archivedUuids db0).contains u = false) (rows : List (String × String)) :
    ∀ st : RunState, itemsShape st.db = itemsShape db0 →
      st.db.metadatavalue.filter (fun mv => mv.dspace_object_id == u)
        = db0.metadatavalue.filter (fun mv => mv.dspace_object_id == u) →
      itemsShape (fixRunRows args now rows st).1.db = itemsShape db0 ∧
      (fixRunRows args now rows st).1.db.metadatavalue.filter
        (fun mv => mv.dspace_object_id == u)
        = db0.metadatavalue.filter (fun mv => mv.dspace_object_id == u) := by
  induction rows with
  | nil => intro st h1 h2; exact ⟨h1, h2⟩
  | cons r rs ih =>
      intro st h1 h2
      rw [fixRunRows]
      obtain ⟨h1', h2'⟩ := fixProcessRow_preserves_bad args now db0 u hu st r h1 h2
      rcases hpr : fixProcessRow args now st r with ⟨st2, err⟩
      rw [hpr] at h1' h2'
      cases err with
      | none => exact ih st2 h1' h2'
      | some e => exact ⟨h1', h2'⟩

/-- The whole delete-script row loop preserves the metadata values of any
object outside the archived scope. -/
theorem deleteRunRows_preserves_bad (args : DeleteArgs) (now : Nat) (db0 : DB) (u : String)
    (hu : (archivedUuids db0).contains u = false) (rows : List String) :
    ∀ st : RunState, itemsShape st.db = itemsShape db0 →
      st.db.metadatavalue.filter (fun mv => mv.dspace_object_id == u)
        = db0.metadatavalue.filter (fun mv => mv.dspace_object_id == u) →
      itemsShape (deleteRunRows args now rows st).1.db = itemsShape db0 ∧
      (deleteRunRows args now rows st).1.db.metadatavalue.filter
        (fun mv => mv.dspace_object_id == u)
        = db0.metadatavalue.filter (fun mv => mv.dspace_object_id == u) := by
  induction rows with
  | nil => intro st h1 h2; exact ⟨h1, h2⟩
  | cons r rs ih =>
      intro st h1 h2
      rw [deleteRunRows]
      obtain ⟨h1', h2'⟩ := deleteProcessRow_preserves_bad args now db0 u hu st r h1 h2
      rcases hpr : deleteProcessRow args now st r with ⟨st2, err⟩
      rw [hpr] at h1' h2'
      cases err with
      | none => exact ih st2 h1' h2'
      | some e => exact ⟨h1', h2'⟩

/-- The whole move-script line loop preserves the metadata values of any
object outside the archived scope. -/
theorem moveRunRows_preserves_bad (args : MoveArgs) (now : Nat) (db0 : DB) (u : String)
    (hu : (archivedUuids db0).contains u = false) (lines : List String) :
    ∀ st : RunState, itemsShape st.db = itemsShape db0 →
      st.db.metadatavalue.filter (fun mv => mv.dspace_object_id == u)
        = db0.metadatavalue.filter (fun mv => mv.dspace_object_id == u) →
      itemsShape (moveRunRows args now lines st).1.db = itemsShape db0 ∧
      (moveRunRows args now lines st).1.db.metadatavalue.filter
        (fun mv => mv.dspace_object_id == u)
        = db0.metadatavalue.filter (fun mv => mv.dspace_object_id == u) := by
  induction lines with
  | nil => intro st h1 h2; exact ⟨h1, h2⟩
  | cons r rs ih =>
      intro st h1 h2
      rw [moveRunRows]
      obtain ⟨h1', h2'⟩ := moveProcessLine_preserves_bad args now db0 u hu st r h1 h2
      rcases hpr : moveProcessLine args now st r with ⟨st2, err⟩
      rw [hpr] at h1' h2'
      cases err with
      | none => exact ih st2 h1' h2'
      | some e => exact ⟨h1', h2'⟩

/-- Claim C5: metadata values attached to items that are not in the archive or
that are withdrawn (and values attached to no item at all) are never modified,
deleted, or moved by any run of the fix, delete, or move scripts: every
UPDATE/DELETE is scoped by the archived-and-not-withdrawn predicate. -/
theorem archived_scope_invariant (db : DB) (now : Nat) (i : Item)
    (hmem : i ∈ db.items) (hbaditem : ¬(i.in_archive = true ∧ i.withdrawn = false))
    (hnodup : (db.items.map Item.uuid).Nodup) :
    (∀ (args : FixArgs) (rows : List (String × String)),
      (fixRun args now rows db).1.db.metadatavalue.filter
        (fun mv => mv.dspace_object_id == i.uuid)
        = db.metadatavalue.filter (fun mv => mv.dspace_object_id == i.uuid)) ∧
    (∀ (args : DeleteArgs) (rows : List String),
      (deleteRun args now rows db).1.db.metadatavalue.filter
        (fun mv => mv.dspace_object_id == i.uuid)
        = db.metadatavalue.filter (fun mv => mv.dspace_object_id == i.uuid)) ∧
    (∀ (args : MoveArgs) (lines : List String),
      (moveRun args now lines db).1.db.metadatavalue.filter
        (fun mv => mv.dspace_object_id == i.uuid)
        = db.metadatavalue.filter (fun mv => mv.dspace_object_id == i.uuid)) := by
  have hu : (archivedUuids db).contains i.uuid = false := by
    cases hx : (archivedUuids db).contains i.uuid
    · rfl
    · exfalso
      have hmem' : i.uuid ∈ archivedUuids db := by simpa using hx
      rw [archivedUuids] at hmem'
      rcases List.mem_map.mp hmem' with ⟨j, hj, hjuuid⟩
      have hjmem : j ∈ db.items := (List.mem_filter.mp hj).1
      have hpred : (j.in_archive && !j.withdrawn) = true := (List.mem_filter.mp hj).2
      have hji : j = i := List.inj_on_of_nodup_map hnodup hjmem hmem hjuuid
      rw [hji] at hpred
      simp only [Bool.and_eq_true, Bool.not_eq_true'] at hpred
      exact hbaditem ⟨hpred.1, hpred.2⟩
  refine ⟨fun args rows => ?_, fun args rows => ?_, fun args lines => ?_⟩
  · obtain ⟨h1, h2⟩ := fixRunRows_preserves_bad args now db i.uuid hu rows
      ⟨db, [], []⟩ rfl rfl
    rw [fixRun]
    rcases hrun : fixRunRows args now rows ⟨db, [], []⟩ with ⟨st, err⟩
    rw [hrun] at h1 h2
    cases err with
    | none =>
        cases hd : args.dry_run with
        | false => simpa [hd] using h2
        | true => simpa [hd] using h2
    | some e => exact h2
  · obtain ⟨h1, h2⟩ := deleteRunRows_preserves_bad args now db i.uuid hu rows
      ⟨db, [], []⟩ rfl rfl
    rw [deleteRun]
    rcases hrun : deleteRunRows args now rows ⟨db, [], []⟩ with ⟨st, err⟩
    rw [hrun] at h1 h2
    cases err with
    | none =>
        cases hd : args.dry_run with
        | false => simpa [hd] using h2
        | true => simpa [hd] using h2
    | some e => exact h2
  · obtain ⟨h1, h2⟩ := moveRunRows_preserves_bad args now db i.uuid hu lines
      ⟨db, [], []⟩ rfl rfl
    exact h2

/-- Witness for `archived_scope_invariant`: the withdrawn item `u2` of
`sampleDB` keeps its metadata value through a matching non-dry fix run. -/
theorem archived_scope_invariant_witness :
    (fixRun ⟨false, false, "dc.title", "correct"⟩ 7 [("Old", "New")] sampleDB).1.db.metadatavalue.filter
      (fun mv => mv.dspace_object_id == "u2")
      = sampleDB.metadatavalue.filter (fun mv => mv.dspace_object_id == "u2") := by
  have h := archived_scope_invariant sampleDB 7 ⟨"u2", false, true, 0⟩
    (by decide) (by decide) (by decide)
  exact h.1 ⟨false, false, "dc.title", "correct"⟩ [("Old", "New")]
end DSpace
